import Mathlib

/-!
Verification development for the conversational search session controller in
src/google_ai_search/searcher.py (sync class GoogleAISearcher and async class
AsyncGoogleAISearcher).

Strings are modelled as `List Char`.  Each definition is a direct translation
of the corresponding Python function; external effects (browser calls, clock,
open TCP ports, environment variables) are supplied as explicit oracle
arguments.  Machine details that matter (UTF-8 bytes for URL quoting, Python
slice clamping, `str.find` returning the first index) are modelled explicitly.
-/

namespace GoogleAISearch

/-- Whitespace test used to model Python `str.strip` / regex `\s`
(ASCII whitespace set of Python plus the characters actually reachable here). -/
def pyWs (c : Char) : Bool :=
  c = ' ' || c = '\t' || c = '\n' || c = '\r' || c = '\x0b' || c = '\x0c'

/-- Decimal digit test modelling regex `\d` on the inputs used by the code. -/
def pyDigit (c : Char) : Bool :=
  '0' ≤ c && c ≤ '9'

/-- Model of Python `str.strip()`: drop leading and trailing whitespace. -/
def pyStrip (l : List Char) : List Char :=
  (l.dropWhile pyWs).rdropWhile pyWs

/-- Model of Python `str.find` for substrings: index of the first occurrence
of `needle` in `hay`, or `none` (Python returns -1). -/
def findSub (hay needle : List Char) : Option Nat :=
  if needle.isPrefixOf hay then some 0
  else
    match hay with
    | [] => none
    | _ :: t => (findSub t needle).map (· + 1)

/-- Model of the Python `in` substring test (`needle in hay`). -/
def pyIn (hay needle : List Char) : Bool :=
  (findSub hay needle).isSome

/-- Model of Python `str.rfind` for a single character: index of the last
occurrence, or `none` (Python returns -1). -/
def pyRfindChar (l : List Char) (c : Char) : Option Nat :=
  match findSub l.reverse [c] with
  | some i => some (l.length - 1 - i)
  | none => none

/-- Python slice `l[a:b]` (with the clamping Python performs for
nonnegative indices). -/
def pySlice (l : List Char) (a b : Nat) : List Char :=
  (l.take b).drop a

/-- Python slice `l[a:]`. -/
def pyDrop (l : List Char) (a : Nat) : List Char :=
  l.drop a

/-!
Proxy Resolver (§4.7 of the spec).

`GoogleAISearcher._detect_proxy` (searcher.py lines 921-958) and
`AsyncGoogleAISearcher._detect_proxy` (lines 2410-2456).  The environment
variables and the result of the TCP port probe are oracle inputs:
`envGet v` is `os.environ.get(v)` and `portOpen p` is the outcome of the
`connect_ex` probe of local port `p`.
-/

/-- Environment variable probe order of the sync `_detect_proxy`. -/
def syncProxyEnvVars : List (List Char) :=
  ["HTTP_PROXY".toList, "http_proxy".toList, "HTTPS_PROXY".toList,
   "https_proxy".toList, "ALL_PROXY".toList, "all_proxy".toList]

/-- Environment variable probe order of the async `_detect_proxy`. -/
def asyncProxyEnvVars : List (List Char) :=
  ["HTTP_PROXY".toList, "http_proxy".toList, "HTTPS_PROXY".toList,
   "https_proxy".toList]

/-- Port probe order of the sync `_detect_proxy` (searcher.py lines 938-944):
HTTP ports first, then SOCKS5 ports. -/
def syncCommonPorts : List (Nat × List Char) :=
  [(10809, "http://127.0.0.1:10809".toList),
   (7890, "http://127.0.0.1:7890".toList),
   (10808, "socks5://127.0.0.1:10808".toList),
   (7891, "socks5://127.0.0.1:7891".toList),
   (1080, "socks5://127.0.0.1:1080".toList)]

/-- Port probe order of the async `_detect_proxy` (searcher.py lines 2437-2448):
the SOCKS5 port 10808 is probed first, deliberately (the code comments that
Chrome supports SOCKS5 better). -/
def asyncCommonPorts : List (Nat × List Char) :=
  [(10808, "socks5://127.0.0.1:10808".toList),
   (10809, "http://127.0.0.1:10809".toList),
   (7890, "http://127.0.0.1:7890".toList),
   (7891, "socks5://127.0.0.1:7891".toList),
   (1080, "socks5://127.0.0.1:1080".toList)]

/-- Shared body of both `_detect_proxy` variants: first set environment
variable wins, otherwise the URL of the first open port in the probe list. -/
def detectProxyWith (envVars : List (List Char)) (ports : List (Nat × List Char))
    (envGet : List Char → Option (List Char)) (portOpen : Nat → Bool) :
    Option (List Char) :=
  match envVars.findSome? envGet with
  | some proxy => some proxy
  | none =>
    match ports.find? (fun pu => portOpen pu.1) with
    | some pu => some pu.2
    | none => none

/-- `GoogleAISearcher._detect_proxy` (searcher.py lines 921-958). -/
def syncDetectProxy (envGet : List Char → Option (List Char))
    (portOpen : Nat → Bool) : Option (List Char) :=
  detectProxyWith syncProxyEnvVars syncCommonPorts envGet portOpen

/-- `AsyncGoogleAISearcher._detect_proxy` (searcher.py lines 2410-2456). -/
def asyncDetectProxy (envGet : List Char → Option (List Char))
    (portOpen : Nat → Bool) : Option (List Char) :=
  detectProxyWith asyncProxyEnvVars asyncCommonPorts envGet portOpen

/-- The scheme of a proxy URL string is HTTP (it starts with `http://`). -/
def isHttpScheme (url : List Char) : Bool :=
  "http://".toList.isPrefixOf url

/-- The scheme of a proxy URL string is SOCKS5. -/
def isSocks5Scheme (url : List Char) : Bool :=
  "socks5://".toList.isPrefixOf url

/-!
Incremental Diff Engine (§4.6 of the spec).

`AsyncGoogleAISearcher._remove_previous_content` (searcher.py lines 3906-3989),
`AsyncGoogleAISearcher._remove_user_query_from_content` (lines 3991-4068) and
`AsyncGoogleAISearcher._extract_incremental_content` (lines 3853-3904).
-/

/-- Character class removed by the `normalize` helper inside
`_remove_user_query_from_content` (regex `[\s\?\？\!\！\.\。\,\，]+`
substituted by the empty string, i.e. all such characters are removed). -/
def normStripChar (c : Char) : Bool :=
  pyWs c || c = '?' || c = '？' || c = '!' || c = '！' || c = '.' ||
    c = '。' || c = ',' || c = '，'

/-- The `normalize` helper of `_remove_user_query_from_content`
(searcher.py lines 4039-4040). -/
def normalizeQ (l : List Char) : List Char :=
  l.filter (fun c => !normStripChar c)

/-- First index `j` with `lo ≤ j < hi` satisfying `p`, modelling a Python
`for j in range(lo, hi)` loop with a `break`. -/
def firstInRange (lo hi : Nat) (p : Nat → Bool) : Option Nat :=
  ((List.range (hi - lo)).map (· + lo)).find? p

/-- Inner scan of strategy 3 of `_remove_user_query_from_content`
(searcher.py lines 4053-4059): starting at position `i`, find the first `j` in
`range(i, min(i + len(query_normalized) + 30, len(content)))` at which the
normalized slice `content[i:j+1]` equals the corresponding prefix of
`query_norm` and has at least its length; the Python code records
`match_end = j + 1`. -/
def strategy3MatchEnd (content queryNormalized qNorm : List Char) (i : Nat) :
    Option Nat :=
  (firstInRange i (min (i + queryNormalized.length + 30) content.length)
    (fun j =>
      let nj := normalizeQ (pySlice content i (j + 1))
      nj == qNorm.take nj.length && qNorm.length ≤ nj.length)).map (· + 1)

/-- Outer loop of strategy 3 of `_remove_user_query_from_content`
(searcher.py lines 4045-4064): the first `i < min(50, len(content))` whose
normalized slice starts with `query_norm` and whose inner scan finds a match
end, together with that match end. -/
def strategy3Find (content queryNormalized qNorm : List Char) : Option Nat :=
  (firstInRange 0 (min 50 content.length)
    (fun i =>
      let contentSlice := pySlice content i (i + queryNormalized.length + 20)
      qNorm.isPrefixOf (normalizeQ contentSlice) &&
        (strategy3MatchEnd content queryNormalized qNorm i).isSome)).bind
    (fun i => strategy3MatchEnd content queryNormalized qNorm i)

/-- `AsyncGoogleAISearcher._remove_user_query_from_content`
(searcher.py lines 3991-4068). -/
def removeUserQueryFromContent (content query : List Char) : List Char :=
  if content = [] ∨ query = [] then content
  else if query.isPrefixOf content then
    -- strategy 1: exact prefix match
    pyStrip (content.drop query.length)
  else
    let queryNormalized := pyStrip query
    let searchRange := min (queryNormalized.length + 50) content.length
    let contentStart := content.take searchRange
    let fallback :=
      -- strategy 3: normalized match, else return the content unchanged
      let qNorm := normalizeQ queryNormalized
      if 5 ≤ qNorm.length then
        match strategy3Find content queryNormalized qNorm with
        | some matchEnd => pyStrip (content.drop matchEnd)
        | none => content
      else content
    match findSub contentStart queryNormalized with
    | some pos =>
      if pos < 20 then
        -- strategy 2: fuzzy match within the first 20 characters
        pyStrip (content.drop (pos + queryNormalized.length))
      else fallback
    | none => fallback

/-- `AsyncGoogleAISearcher._remove_previous_content`
(searcher.py lines 3906-3989). -/
def removePreviousContent (fullContent previousContent : List Char) :
    List Char :=
  if previousContent = [] then fullContent
  else if pyIn fullContent previousContent then
    -- strategy 1: exact substring match
    let endPos := (findSub fullContent previousContent).getD 0 +
      previousContent.length
    let newContent := pyStrip (fullContent.drop endPos)
    if newContent ≠ [] then newContent else []
  else
    let prefixLength := min 200 previousContent.length
    let previousPrefix := pyStrip (previousContent.take prefixLength)
    if previousPrefix.isPrefixOf fullContent then
      -- strategy 2: prefix match, split near the estimated end
      let estimatedEnd := previousContent.length
      let searchStart := estimatedEnd - 50
      let searchEnd := min fullContent.length (estimatedEnd + 50)
      let searchRegion := pySlice fullContent searchStart searchEnd
      match pyRfindChar searchRegion '\n' with
      | some newlinePos => pyStrip (fullContent.drop (searchStart + newlinePos + 1))
      | none => pyStrip (fullContent.drop estimatedEnd)
    else if 100 < previousContent.length then
      -- strategy 3: core substring match
      let midStart := previousContent.length / 2 - 50
      let midEnd := midStart + 100
      let coreContent := pySlice previousContent midStart midEnd
      match findSub fullContent coreContent with
      | some corePos =>
        let estimatedEnd :=
          min (corePos + (previousContent.length - midStart)) fullContent.length
        let newContent := pyStrip (fullContent.drop estimatedEnd)
        if newContent ≠ [] then newContent else fullContent
      | none => fullContent
    else fullContent

/-- `AsyncGoogleAISearcher._extract_incremental_content`
(searcher.py lines 3853-3904). -/
def extractIncrementalContent (fullContent previousContent userQuery : List Char) :
    List Char :=
  if fullContent = [] then []
  else if previousContent = [] then fullContent
  else
    let newContent := removePreviousContent fullContent previousContent
    if newContent ≠ [] ∧ userQuery ≠ [] then
      removeUserQueryFromContent newContent userQuery
    else newContent

/-!
URL construction (§8 of the spec, URL round-trip property).

`GoogleAISearcher._build_url` (searcher.py lines 960-971) uses
`urllib.parse.quote_plus` on the query and interpolates the language code
verbatim; `AsyncGoogleAISearcher._build_url` (lines 2346-2380) uses
`urllib.parse.urlencode` on the parameter mapping, which quote-plus encodes
every key and value.  UTF-8 encoding and percent escaping are modelled
explicitly.
-/

/-- UTF-8 encoding of one Unicode scalar value as byte values. -/
def utf8EncodeCharNat (n : Nat) : List Nat :=
  if n < 0x80 then [n]
  else if n < 0x800 then [0xC0 + n / 64, 0x80 + n % 64]
  else if n < 0x10000 then
    [0xE0 + n / 4096, 0x80 + n / 64 % 64, 0x80 + n % 64]
  else
    [0xF0 + n / 262144, 0x80 + n / 4096 % 64, 0x80 + n / 64 % 64, 0x80 + n % 64]

/-- UTF-8 byte sequence of a string, as Python `str.encode` produces for the
valid scalar values a `Char` can hold. -/
def utf8Bytes (l : List Char) : List Nat :=
  l.flatMap (fun c => utf8EncodeCharNat c.toNat)

/-- UTF-8 decoding, the inverse used when parsing a percent-encoded value
back (Python `bytes.decode`). -/
def utf8Decode : List Nat → List Char
  | [] => []
  | b :: t =>
    if b < 0x80 then Char.ofNat b :: utf8Decode t
    else if b < 0xE0 then
      if t.length < 1 then []
      else Char.ofNat ((b - 0xC0) * 64 + (t.getD 0 0 - 0x80)) ::
        utf8Decode (t.drop 1)
    else if b < 0xF0 then
      if t.length < 2 then []
      else Char.ofNat ((b - 0xE0) * 4096 + (t.getD 0 0 - 0x80) * 64 +
        (t.getD 1 0 - 0x80)) :: utf8Decode (t.drop 2)
    else
      if t.length < 3 then []
      else Char.ofNat ((b - 0xF0) * 262144 + (t.getD 0 0 - 0x80) * 4096 +
        (t.getD 1 0 - 0x80) * 64 + (t.getD 2 0 - 0x80)) ::
        utf8Decode (t.drop 3)
termination_by l => l.length
decreasing_by all_goals (simp [List.length_drop]; try omega)

/-- Bytes never quoted by `urllib.parse.quote_plus`: ASCII letters, digits
and `_.-~`. -/
def quoteSafeByte (b : Nat) : Bool :=
  (48 ≤ b && b ≤ 57) || (65 ≤ b && b ≤ 90) || (97 ≤ b && b ≤ 122) ||
    b = 45 || b = 46 || b = 95 || b = 126

/-- Uppercase hexadecimal digit character for a value below 16. -/
def hexDigit (n : Nat) : Char :=
  if n < 10 then Char.ofNat (48 + n) else Char.ofNat (55 + n)

/-- Value of a hexadecimal digit character (0 for other characters). -/
def hexVal (c : Char) : Nat :=
  if '0' ≤ c ∧ c ≤ '9' then c.toNat - 48
  else if 'A' ≤ c ∧ c ≤ 'F' then c.toNat - 55
  else if 'a' ≤ c ∧ c ≤ 'f' then c.toNat - 87
  else 0

/-- Percent-encoding of one byte as done by `urllib.parse.quote_plus`:
safe bytes stand for themselves, the space byte becomes `+`, every other
byte becomes `%XX` with uppercase hex digits. -/
def quotePlusByte (b : Nat) : List Char :=
  if quoteSafeByte b then [Char.ofNat b]
  else if b = 32 then ['+']
  else ['%', hexDigit (b / 16), hexDigit (b % 16)]

/-- Model of `urllib.parse.quote_plus` on a string. -/
def quotePlus (l : List Char) : List Char :=
  (utf8Bytes l).flatMap quotePlusByte

/-- Byte sequence recovered from a percent-encoded query-string value:
`+` stands for the space byte, `%XX` for the escaped byte, any other
character for its own UTF-8 bytes.  This is `urllib.parse.unquote_plus`
up to the final UTF-8 decode. -/
def unquoteBytes : List Char → List Nat
  | [] => []
  | c :: t =>
    if c = '+' then 32 :: unquoteBytes t
    else if c = '%' then
      if t.length < 2 then utf8EncodeCharNat c.toNat ++ unquoteBytes t
      else (hexVal (t.getD 0 ' ') * 16 + hexVal (t.getD 1 ' ')) ::
        unquoteBytes (t.drop 2)
    else utf8EncodeCharNat c.toNat ++ unquoteBytes t
termination_by l => l.length
decreasing_by all_goals (simp [List.length_drop]; try omega)

/-- Model of `urllib.parse.unquote_plus`. -/
def unquotePlus (l : List Char) : List Char :=
  utf8Decode (unquoteBytes l)

/-- Substring after the first occurrence of `c` (used to isolate the query
string after `?`). -/
def afterFirstChar (c : Char) : List Char → List Char
  | [] => []
  | a :: t => if a = c then t else afterFirstChar c t

/-- Split a list at every occurrence of `c` (like `str.split` on one
character). -/
def splitChar (c : Char) : List Char → List (List Char)
  | [] => [[]]
  | a :: t =>
    if a = c then [] :: splitChar c t
    else (a :: (splitChar c t).headD []) :: (splitChar c t).tail

/-- Split a list at the first occurrence of `c` into the part before and the
part after (used for `key=value`). -/
def splitFirstChar (c : Char) (l : List Char) : List Char × List Char :=
  match l with
  | [] => ([], [])
  | a :: t =>
    if a = c then ([], t)
    else
      let r := splitFirstChar c t
      (a :: r.1, r.2)

/-- Query-string parameters of a URL: the part after the first `?`, split
at `&`, each parameter split at the first `=` with the value
percent-decoded. -/
def parseQueryParams (url : List Char) : List (List Char × List Char) :=
  (splitChar '&' (afterFirstChar '?' url)).map
    (fun kv =>
      let p := splitFirstChar '=' kv
      (p.1, unquotePlus p.2))

/-- Value of the first query-string parameter named `key`. -/
def getParam (url : List Char) (key : List Char) : Option (List Char) :=
  ((parseQueryParams url).find? (fun p => p.1 == key)).map (fun p => p.2)

/-- `GoogleAISearcher._build_url` (searcher.py lines 960-971). -/
def syncBuildUrl (query language : List Char) : List Char :=
  "https://www.google.com/search?q=".toList ++ quotePlus query ++
    "&udm=50&hl=".toList ++ language

/-- Model of `urllib.parse.urlencode` on an association list (each key and
value quote-plus encoded, pairs joined with `=` and `&`). -/
def urlencode (params : List (List Char × List Char)) : List Char :=
  List.intercalate ['&']
    (params.map (fun p => quotePlus p.1 ++ '=' :: quotePlus p.2))

/-- `AsyncGoogleAISearcher._build_url` (searcher.py lines 2346-2380). -/
def asyncBuildUrl (query language : List Char) : List Char :=
  "https://www.google.com/search?".toList ++
    urlencode [("q".toList, query), ("udm".toList, "50".toList),
      ("hl".toList, language)]

/-- The six language codes of the tool interface (server.py line 121). -/
def languageCodes : List (List Char) :=
  ["zh-CN".toList, "en-US".toList, "ja-JP".toList, "ko-KR".toList,
   "de-DE".toList, "fr-FR".toList]

/-!
Navigation Text Cleaner (§4.5 of the spec).

`GoogleAISearcher.clean_ai_answer` (searcher.py lines 1786-1923) and the
textually identical `AsyncGoogleAISearcher.clean_ai_answer`
(lines 4188-4332).  Each removal pattern of the Python list uses only the
regex features: a `^` anchor, literal characters under `re.IGNORECASE`,
`\s*`, `\d+` and an optional single character (`\.?`, `。?`, `s?`).  All
quantifiers there are deterministic (no continuation can consume a character
the greedy quantifier takes), so maximal-munch matching reproduces the
Python `re` semantics on every input.
-/

/-- One element of a removal pattern. -/
inductive RItem where
  | lit (c : Char)
  | optLit (c : Char)
  | wsStar
  | digitPlus
deriving DecidableEq

/-- A removal pattern: an optional `^` anchor and the element sequence. -/
structure RePattern where
  anchored : Bool
  items : List RItem
deriving DecidableEq

/-- Case folding used to model `re.IGNORECASE` (ASCII letters and the
Latin-1 uppercase letters that occur in the pattern table). -/
def foldChar (c : Char) : Char :=
  if 'A' ≤ c ∧ c ≤ 'Z' then Char.ofNat (c.toNat + 32)
  else if 0xC0 ≤ c.toNat ∧ c.toNat ≤ 0xDE ∧ c.toNat ≠ 0xD7 then
    Char.ofNat (c.toNat + 32)
  else c

/-- Match the element sequence at the start of `s`; on success return the
rest of `s` after the (maximal-munch) match. -/
def matchItems : List RItem → List Char → Option (List Char)
  | [], s => some s
  | RItem.lit c :: is, s =>
    match s with
    | [] => none
    | d :: t => if foldChar c = foldChar d then matchItems is t else none
  | RItem.optLit c :: is, s =>
    match s with
    | [] => matchItems is []
    | d :: t => if foldChar c = foldChar d then matchItems is t else matchItems is s
  | RItem.wsStar :: is, s => matchItems is (s.dropWhile pyWs)
  | RItem.digitPlus :: is, s =>
    match s with
    | [] => none
    | d :: t => if pyDigit d then matchItems is (t.dropWhile pyDigit) else none

/-- Left-to-right scan of `re.sub(pattern, '', s)` for an unanchored
pattern: each position is tried in turn, a match is deleted and the scan
continues after it.  Every pattern of the table consumes at least one
character, so the guard against zero-length matches never fires on them.
The fuel argument only bounds the recursion; `scanSub` below starts it at
the input length, which one scan step never exceeds. -/
def scanSubF (items : List RItem) : Nat → List Char → List Char
  | _, [] => []
  | 0, l => l
  | fuel + 1, a :: rest =>
    match matchItems items (a :: rest) with
    | some leftover =>
      if leftover.length ≤ rest.length then scanSubF items fuel leftover
      else a :: scanSubF items fuel rest
    | none => a :: scanSubF items fuel rest

/-- The scan with enough fuel for the whole input. -/
def scanSub (items : List RItem) (l : List Char) : List Char :=
  scanSubF items l.length l

/-- `re.sub(pattern, '', s)`: a `^`-anchored pattern (no `re.MULTILINE`)
can only match at position 0 and is removed at most once; an unanchored
pattern is removed at every match of the scan. -/
def subPattern (p : RePattern) (s : List Char) : List Char :=
  if p.anchored then
    match matchItems p.items s with
    | some leftover => leftover
    | none => s
  else scanSub p.items s

/-- Literal items of a string. -/
def rl (s : String) : List RItem :=
  s.toList.map RItem.lit

/-- An unanchored all-literal pattern. -/
def pat (s : String) : RePattern :=
  ⟨false, rl s⟩

/-- An anchored AI-mode label pattern `^<label>\s*`. -/
def patA (s : String) : RePattern :=
  ⟨true, rl s ++ [RItem.wsStar]⟩

/-- The removal pattern table of `clean_ai_answer`
(searcher.py lines 1804-1908), in source order. -/
def cleanPatterns : List RePattern :=
  [ -- Chinese (zh-CN)
    patA "AI 模式",
    ⟨false, rl "全部" ++ [RItem.wsStar] ++ rl "图片" ++ [RItem.wsStar] ++
      rl "视频" ++ [RItem.wsStar] ++ rl "新闻" ++ [RItem.wsStar] ++ rl "更多"⟩,
    pat "登录",
    pat "AI 的回答未必正确无误，请注意核查",
    ⟨false, rl "AI 回答可能包含错误" ++ [RItem.optLit '。', RItem.wsStar] ++
      rl "了解详情"⟩,
    ⟨false, rl "请谨慎使用此类代码" ++ [RItem.optLit '。']⟩,
    ⟨false, [RItem.digitPlus] ++ rl " 个网站"⟩,
    pat "全部显示",
    pat "查看相关链接",
    pat "关于这条结果",
    pat "搜索结果",
    pat "相关搜索",
    pat "意见反馈",
    pat "帮助",
    pat "隐私权",
    pat "条款",
    -- English (en-US)
    patA "AI Mode",
    ⟨false, rl "All" ++ [RItem.wsStar] ++ rl "Images" ++ [RItem.wsStar] ++
      rl "Videos" ++ [RItem.wsStar] ++ rl "News" ++ [RItem.wsStar] ++ rl "More"⟩,
    pat "Sign in",
    ⟨false, rl "AI responses may include mistakes" ++
      [RItem.optLit '.', RItem.wsStar] ++ rl "Learn more"⟩,
    ⟨false, rl "AI overview" ++ [RItem.wsStar]⟩,
    ⟨false, rl "Use code with caution" ++ [RItem.optLit '.']⟩,
    ⟨false, [RItem.digitPlus] ++ rl " site" ++ [RItem.optLit 's']⟩,
    pat "Show all",
    pat "View related links",
    pat "About this result",
    pat "Search Results",
    pat "Related searches",
    pat "Send feedback",
    pat "Help",
    pat "Privacy",
    pat "Terms",
    pat "Accessibility links",
    pat "Skip to main content",
    pat "Accessibility help",
    pat "Accessibility feedback",
    pat "Filters and topics",
    pat "AI Mode response is ready",
    -- Japanese (ja-JP)
    patA "AI モード",
    ⟨false, rl "すべて" ++ [RItem.wsStar] ++ rl "画像" ++ [RItem.wsStar] ++
      rl "動画" ++ [RItem.wsStar] ++ rl "ニュース" ++ [RItem.wsStar] ++
      rl "もっと見る"⟩,
    pat "ログイン",
    ⟨false, rl "AI の回答には間違いが含まれている場合があります" ++
      [RItem.optLit '。', RItem.wsStar] ++ rl "詳細"⟩,
    ⟨false, [RItem.digitPlus] ++ rl " 件のサイト"⟩,
    pat "すべて表示",
    pat "検索結果",
    pat "関連する検索",
    pat "フィードバックを送信",
    pat "ヘルプ",
    pat "プライバシー",
    pat "利用規約",
    pat "ユーザー補助のリンク",
    pat "メイン コンテンツにスキップ",
    pat "ユーザー補助ヘルプ",
    pat "ユーザー補助に関するフィードバック",
    pat "フィルタとトピック",
    pat "AI モードの回答が作成されました",
    -- Korean (ko-KR)
    patA "AI 모드",
    ⟨false, rl "전체" ++ [RItem.wsStar] ++ rl "이미지" ++ [RItem.wsStar] ++
      rl "동영상" ++ [RItem.wsStar] ++ rl "뉴스" ++ [RItem.wsStar] ++
      rl "더보기"⟩,
    pat "로그인",
    ⟨false, rl "AI 응답에 실수가 포함될 수 있습니다" ++
      [RItem.optLit '.', RItem.wsStar] ++ rl "자세히 알아보기"⟩,
    ⟨false, [RItem.digitPlus] ++ rl "개 사이트"⟩,
    pat "모두 표시",
    pat "검색결과",
    pat "관련 검색",
    pat "의견 보내기",
    pat "도움말",
    pat "개인정보처리방침",
    pat "약관",
    -- German (de-DE)
    patA "KI-Modus",
    ⟨false, rl "Alle" ++ [RItem.wsStar] ++ rl "Bilder" ++ [RItem.wsStar] ++
      rl "Videos" ++ [RItem.wsStar] ++ rl "News" ++ [RItem.wsStar] ++ rl "Mehr"⟩,
    pat "Anmelden",
    ⟨false, rl "KI-Antworten können Fehler enthalten" ++
      [RItem.optLit '.', RItem.wsStar] ++ rl "Weitere Informationen"⟩,
    ⟨false, [RItem.digitPlus] ++ rl " Website" ++ [RItem.optLit 's']⟩,
    pat "Alle anzeigen",
    pat "Suchergebnisse",
    pat "Ähnliche Suchanfragen",
    pat "Feedback senden",
    pat "Hilfe",
    pat "Datenschutz",
    pat "Nutzungsbedingungen",
    -- French (fr-FR)
    patA "Mode IA",
    ⟨false, rl "Tous" ++ [RItem.wsStar] ++ rl "Images" ++ [RItem.wsStar] ++
      rl "Vidéos" ++ [RItem.wsStar] ++ rl "Actualités" ++ [RItem.wsStar] ++
      rl "Plus"⟩,
    pat "Connexion",
    ⟨false, rl "Les réponses de l" ++ [RItem.lit (Char.ofNat 39)] ++
      rl "IA peuvent contenir des erreurs" ++
      [RItem.optLit '.', RItem.wsStar] ++ rl "En savoir plus"⟩,
    ⟨false, [RItem.digitPlus] ++ rl " site" ++ [RItem.optLit 's']⟩,
    pat "Tout afficher",
    pat "Résultats de recherche",
    pat "Recherches associées",
    pat "Envoyer des commentaires",
    pat "Aide",
    pat "Confidentialité",
    pat "Conditions" ]

/-- Collapse every run of the character `c` to a single occurrence, the
effect of `re.sub(r' +', ' ', s)` and `re.sub(r'\n+', '\n', s)`. -/
def collapseRuns (c : Char) : List Char → List Char
  | [] => []
  | [a] => [a]
  | a :: b :: t =>
    if a = c ∧ b = c then collapseRuns c (b :: t)
    else a :: collapseRuns c (b :: t)

/-- No two consecutive occurrences of `c` (the shape `collapseRuns c`
establishes). -/
def noTwoB (c : Char) : List Char → Bool
  | a :: b :: t => if a = c ∧ b = c then false else noTwoB c (b :: t)
  | _ => true

/-- Application of the whole pattern table in source order. -/
def applyPatterns (ps : List RePattern) (s : List Char) : List Char :=
  ps.foldl (fun acc p => subPattern p acc) s

/-- `GoogleAISearcher.clean_ai_answer` (searcher.py lines 1786-1923); the
async variant (lines 4188-4332) is textually identical.  All pattern
substitutions in source order, then collapse of space runs, collapse of
newline runs, and a final strip. -/
def cleanAiAnswer (text : List Char) : List Char :=
  pyStrip (collapseRuns '\n' (collapseRuns ' ' (applyPatterns cleanPatterns text)))

/-- The six AI-mode labels (the strings removed by the anchored patterns,
also used by the content extractor). -/
def aiModeLabels : List (List Char) :=
  ["AI 模式".toList, "AI Mode".toList, "AI モード".toList, "AI 모드".toList,
   "KI-Modus".toList, "Mode IA".toList]

/-!
Data model (§3 of the spec): `SearchSource` and `SearchResult` dataclasses
(searcher.py lines 96-196).
-/

/-- The `SearchSource` dataclass. -/
structure SearchSource where
  title : List Char
  url : List Char
  snippet : List Char
deriving DecidableEq

/-- The `SearchResult` dataclass. -/
structure SearchResult where
  success : Bool
  query : List Char
  aiAnswer : List Char
  sources : List SearchSource
  error : List Char
deriving DecidableEq

/-- A failed `SearchResult(success=False, query=q, error=msg)` as the
controller builds it. -/
def failResult (q msg : List Char) : SearchResult :=
  { success := false, query := q, aiAnswer := [], sources := [], error := msg }

/-- ASCII/Latin-1 lowering, modelling `str.lower()` on the text the
CAPTCHA detector sees. -/
def pyLower (l : List Char) : List Char :=
  l.map foldChar

/-- `CAPTCHA_KEYWORDS` (searcher.py lines 234-242). -/
def captchaKeywords : List (List Char) :=
  ["异常流量".toList, "我们的系统检测到".toList, "unusual traffic".toList,
   "automated requests".toList, "验证您是真人".toList,
   "prove you".toList ++ Char.ofNat 39 :: "re not a robot".toList,
   "recaptcha".toList]

/-- `GoogleAISearcher._is_captcha_page` (searcher.py lines 1098-1111) and the
async variant (lines 3560-3587): case-insensitive substring match against the
keyword table; empty content is never a CAPTCHA page. -/
def isCaptchaPage (content : List Char) : Bool :=
  if content = [] then false
  else captchaKeywords.any (fun kw => pyIn (pyLower content) (pyLower kw))

/-!
Browser Session Manager (§4.1 of the spec).

Session-relevant attributes of the two searcher classes, the sync
`close_session` (searcher.py lines 497-537), the async `close_session`
(lines 2306-2333), and both `has_active_session` variants (lines 478-495
and 2177-2197).  Timestamps are integers supplied by the caller
(`time.time()` values).
-/

/-- `SESSION_TIMEOUT = 300` (searcher.py lines 262 and 2000). -/
def sessionTimeout : Int := 300

/-- Session state of the sync `GoogleAISearcher`: the booleans record
whether `_page`, `_context`, `_browser`, `_playwright` hold live objects. -/
structure SyncSessionState where
  sessionActive : Bool
  page : Bool
  context : Bool
  browser : Bool
  playwright : Bool
  lastActivityTime : Int
  lastAiAnswer : List Char
deriving DecidableEq

/-- Session state of the `AsyncGoogleAISearcher`. -/
structure AsyncSessionState where
  sessionActive : Bool
  browser : Bool
  tab : Bool
  lastActivityTime : Int
  lastAiAnswer : List Char
deriving DecidableEq

/-- Effect of the sync `close_session` (searcher.py lines 497-537) on the
session state: deactivate, clear the diff baseline, release every browser
resource; teardown errors are swallowed. -/
def syncCloseSession (st : SyncSessionState) : SyncSessionState :=
  { sessionActive := false, page := false, context := false, browser := false,
    playwright := false, lastActivityTime := st.lastActivityTime,
    lastAiAnswer := [] }

/-- Effect of the async `close_session` (searcher.py lines 2306-2333). -/
def asyncCloseSession (_st : AsyncSessionState) : AsyncSessionState :=
  { sessionActive := false, browser := false, tab := false,
    lastActivityTime := 0, lastAiAnswer := [] }

/-- `GoogleAISearcher.has_active_session` (searcher.py lines 478-495):
returns the answer and the possibly torn-down state; on timeout it calls
`close_session` before returning false. -/
def syncHasActiveSession (st : SyncSessionState) (now : Int) :
    Bool × SyncSessionState :=
  if !st.sessionActive || !st.page then (false, st)
  else if 0 < st.lastActivityTime ∧ sessionTimeout < now - st.lastActivityTime then
    (false, syncCloseSession st)
  else (true, st)

/-- `AsyncGoogleAISearcher.has_active_session` (searcher.py lines 2177-2197):
same timeout test, but the method only reports — it performs no teardown
(the state is returned untouched on every path). -/
def asyncHasActiveSession (st : AsyncSessionState) (now : Int) :
    Bool × AsyncSessionState :=
  if !st.sessionActive || !st.browser then (false, st)
  else if 0 < st.lastActivityTime ∧ sessionTimeout < now - st.lastActivityTime then
    (false, st)
  else (true, st)

/-!
Streaming Completion Monitor (§4.2 of the spec).

`GoogleAISearcher._wait_for_streaming_complete` (searcher.py lines 686-759)
and `AsyncGoogleAISearcher._wait_for_streaming_complete` (lines 2602-2685).
A poll tick carries the page text and the outcomes of the two DOM probes.
-/

/-- One poll tick of the monitor: the page text
(`document.body.innerText`), the loading-indicator probe
(`_check_loading_indicators`, sync only) and the follow-up probe
(`_check_follow_up_suggestions` / `_check_follow_up_input`). -/
structure StreamTick where
  content : List Char
  hasLoadingIndicator : Bool
  hasFollowUp : Bool

/-- `AI_LOADING_KEYWORDS` of the sync class (searcher.py lines 627-633). -/
def syncLoadingKeywords : List (List Char) :=
  ["正在思考".toList, "正在生成".toList, "Thinking".toList,
   "Generating".toList, "Loading".toList]

/-- `AI_LOADING_KEYWORDS` of the async class (searcher.py lines 2027-2032). -/
def asyncLoadingKeywords : List (List Char) :=
  ["正在思考".toList, "正在生成".toList, "Thinking...".toList,
   "Generating...".toList]

/-- `any(kw in content for kw in AI_LOADING_KEYWORDS)`. -/
def isLoadingByKeyword (kws : List (List Char)) (content : List Char) : Bool :=
  kws.any (fun kw => pyIn content kw)

/-- Loop body of the sync `_wait_for_streaming_complete`
(searcher.py lines 710-756), processing the remaining ticks with the
carried `last_content_length` and `stable_count`; an exhausted tick list is
the elapsed `max_wait` (return false). -/
def syncWaitStreamingLoop : List StreamTick → Nat → Nat → Bool
  | [], _, _ => false
  | t :: rest, lastLen, stable =>
    let currentLength := t.content.length
    let isLoading := isLoadingByKeyword syncLoadingKeywords t.content
    if t.hasFollowUp ∧ 500 ≤ currentLength then true
    else if t.hasLoadingIndicator ∨ isLoading = true then
      syncWaitStreamingLoop rest currentLength 0
    else if currentLength = lastLen then
      if 500 ≤ currentLength then
        if 3 ≤ stable + 1 then true
        else syncWaitStreamingLoop rest currentLength (stable + 1)
      else syncWaitStreamingLoop rest currentLength stable
    else syncWaitStreamingLoop rest currentLength 0

/-- `GoogleAISearcher._wait_for_streaming_complete` over a tick oracle:
`max_wait_seconds * 2` iterations at the 500 ms interval, starting with
`last_content_length = 0` and `stable_count = 0`. -/
def syncWaitStreaming (tick : Nat → StreamTick) (maxWaitSeconds : Nat) : Bool :=
  syncWaitStreamingLoop ((List.range (maxWaitSeconds * 2)).map tick) 0 0

/-- Loop body of the async `_wait_for_streaming_complete`
(searcher.py lines 2641-2685): no loading-indicator probe, minimum content
length 200, the loading-keyword test only applies inside the
stable-length branch. -/
def asyncWaitStreamingLoop : List StreamTick → Nat → Nat → Bool
  | [], _, _ => false
  | t :: rest, lastLen, stable =>
    let currentLength := t.content.length
    if t.hasFollowUp ∧ 200 ≤ currentLength then true
    else
      let isLoadingKw :=
        t.content ≠ [] ∧ isLoadingByKeyword asyncLoadingKeywords t.content = true
      if currentLength = lastLen ∧ 200 ≤ currentLength then
        if ¬isLoadingKw then
          if 3 ≤ stable + 1 then true
          else asyncWaitStreamingLoop rest currentLength (stable + 1)
        else asyncWaitStreamingLoop rest currentLength 0
      else if currentLength ≠ lastLen then asyncWaitStreamingLoop rest currentLength 0
      else asyncWaitStreamingLoop rest currentLength stable

/-- `AsyncGoogleAISearcher._wait_for_streaming_complete` over a tick oracle:
`int(max_wait_seconds / 0.5)` iterations; returns false at once if the tab
is gone. -/
def asyncWaitStreaming (tabPresent : Bool) (tick : Nat → StreamTick)
    (maxWaitSeconds : Nat) : Bool :=
  if !tabPresent then false
  else asyncWaitStreamingLoop ((List.range (maxWaitSeconds * 2)).map tick) 0 0

/-- A tick the sync monitor counts as stable against the previous length
`L`: free of both loading signals, length unchanged and at or above the
500-character minimum. -/
def syncStableTickB (L : Nat) (t : StreamTick) : Bool :=
  !t.hasLoadingIndicator &&
    !isLoadingByKeyword syncLoadingKeywords t.content &&
    (t.content.length == L) && decide (500 ≤ t.content.length)

/-- A run of `k` consecutive sync-stable ticks starting against previous
length `L`; the stability exit of the sync monitor needs such a run of
length 3. -/
def syncStableRunB : Nat → Nat → List StreamTick → Bool
  | _, 0, _ => true
  | _, _ + 1, [] => false
  | L, k + 1, t :: rest =>
    syncStableTickB L t && syncStableRunB t.content.length k rest

/-- A tick the async monitor counts as stable against the previous length
`L`: length unchanged at or above the 200-character minimum and no loading
keyword on non-empty content. -/
def asyncStableTickB (L : Nat) (t : StreamTick) : Bool :=
  (t.content.length == L) && decide (200 ≤ t.content.length) &&
    !(!t.content.isEmpty && isLoadingByKeyword asyncLoadingKeywords t.content)

/-- A run of `k` consecutive async-stable ticks starting against previous
length `L`; the stability exit of the async monitor needs such a run of
length 3. -/
def asyncStableRunB : Nat → Nat → List StreamTick → Bool
  | _, 0, _ => true
  | _, _ + 1, [] => false
  | L, k + 1, t :: rest =>
    asyncStableTickB L t && asyncStableRunB t.content.length k rest

/-- The `last_content_length` value the monitor carries after consuming a
prefix of the tick sequence (`L0` when the prefix is empty). -/
def prevLenAfter (L0 : Nat) : List StreamTick → Nat
  | [] => L0
  | t :: rest => prevLenAfter t.content.length rest

/-!
Session Controller / Search API (§4.1, §5, §7 of the spec).

`GoogleAISearcher.search` (searcher.py lines 1224-1267),
`_search_with_persistent_session` (lines 1269-1344),
`_search_with_new_session` (lines 1497-1577),
`continue_conversation` (lines 1346-1449),
`_navigate_to_new_search` (lines 1451-1495),
`AsyncGoogleAISearcher.search` (lines 3724-3851) and
`continue_conversation` (lines 4070-4186).

Every external effect is an oracle field of an environment record: a
fallible browser call is an `Except PyExn` value (the `Except.error` case is
the call raising), `_ensure_session` is a state transformer returning its
boolean, and clock reads are integer fields.  Internal helpers that catch
all their own exceptions (`_save_storage_state`, `_is_captcha_page`,
`close_session`) are modelled by total functions.
-/

/-- A raised Python exception, carrying `str(e)`. -/
structure PyExn where
  msg : List Char
deriving DecidableEq

/-- Oracle environment for one sync `search` call. -/
structure SyncSearchEnv where
  now : Int
  nowAfter : Int
  ensure : SyncSessionState → Bool × SyncSessionState
  importPw : Except PyExn Unit
  goto : Except PyExn Unit
  waitAiContent : Except PyExn Unit
  waitStreaming : Except PyExn Bool
  pageText : Except PyExn (List Char)
  extract : SearchResult
  intervention : Except PyExn SearchResult
  captchaHandler : Except PyExn SearchResult
  launch : Except PyExn Unit
  newPage : Except PyExn Unit
  newGoto : Except PyExn Unit
  newWaitAiContent : Except PyExn Unit
  newPageText : Except PyExn (List Char)
  newExtract : SearchResult
  newIntervention : Except PyExn SearchResult
  newCaptchaHandler : Except PyExn SearchResult

/-- `GoogleAISearcher._search_with_persistent_session`
(searcher.py lines 1269-1344).  The trailing catch-all (line 1337) closes
the session and returns `SearchResult(success=False, error=str(e))`. -/
def syncSearchPersistent (st : SyncSessionState) (env : SyncSearchEnv)
    (q : List Char) : SearchResult × SyncSessionState :=
  match env.ensure st with
  | (false, st1) => (failResult q "无法启动浏览器会话".toList, st1)
  | (true, st1) =>
    match env.goto with
    | Except.error _ =>
      -- navigation failure: close the session, hand over to the
      -- human-intervention handler (lines 1288-1298)
      let st2 := syncCloseSession st1
      match env.intervention with
      | Except.ok r => (r, st2)
      | Except.error e => (failResult q e.msg, syncCloseSession st2)
    | Except.ok _ =>
    match env.waitAiContent with
    | Except.error e => (failResult q e.msg, syncCloseSession st1)
    | Except.ok _ =>
    match env.waitStreaming with
    | Except.error e => (failResult q e.msg, syncCloseSession st1)
    | Except.ok _ =>
    match env.pageText with
    | Except.error e => (failResult q e.msg, syncCloseSession st1)
    | Except.ok content =>
      if isCaptchaPage content then
        let st2 := syncCloseSession st1
        match env.captchaHandler with
        | Except.ok r => (r, st2)
        | Except.error e => (failResult q e.msg, syncCloseSession st2)
      else
        -- `_extract_ai_answer` (lines 1725-1784) catches every exception
        -- internally and always returns a `SearchResult`
        let result := { env.extract with query := q }
        -- lines 1327-1328: the full extracted answer becomes the diff
        -- baseline (storage saving catches its own errors)
        let st2 := { st1 with lastAiAnswer := result.aiAnswer,
                              lastActivityTime := env.nowAfter }
        (result, st2)

/-- `GoogleAISearcher._search_with_new_session`
(searcher.py lines 1509-1577), the part inside its catch-all; the session
state is untouched on this path. -/
def syncSearchNewSession (env : SyncSearchEnv) (q : List Char) : SearchResult :=
  match env.launch with
  | Except.error e => failResult q e.msg
  | Except.ok _ =>
  match env.newPage with
  | Except.error e => failResult q e.msg
  | Except.ok _ =>
  match env.newGoto with
  | Except.error _ =>
    (match env.newIntervention with
     | Except.ok r => r
     | Except.error e => failResult q e.msg)
  | Except.ok _ =>
  match env.newWaitAiContent with
  | Except.error e => failResult q e.msg
  | Except.ok _ =>
  match env.newPageText with
  | Except.error e => failResult q e.msg
  | Except.ok content =>
    if isCaptchaPage content then
      match env.newCaptchaHandler with
      | Except.ok r => r
      | Except.error e => failResult q e.msg
    else
      { env.newExtract with query := q }

/-- `GoogleAISearcher.search` (searcher.py lines 1224-1267): touch the
activity time, fail fast without a browser, then delegate to the
persistent-session or new-session path; the import fallback outside the
inner try (lines 1502-1507) is the only raise its own catch-all sees. -/
def syncSearch (st : SyncSessionState) (env : SyncSearchEnv)
    (browserPath : Option (List Char)) (useUserData : Bool)
    (q _language : List Char) : SearchResult × SyncSessionState :=
  let st0 := { st with lastActivityTime := env.now }
  if browserPath = none then
    (failResult q "未找到可用的浏览器（Chrome 或 Edge）".toList, st0)
  else if useUserData then syncSearchPersistent st0 env q
  else
    match env.importPw with
    | Except.error e => (failResult q e.msg, st0)
    | Except.ok _ => (syncSearchNewSession env q, st0)

/-- Oracle environment for one sync `_navigate_to_new_search` call. -/
structure SyncNavEnv where
  goto : Except PyExn Unit
  waitAiContent : Except PyExn Unit
  waitStreaming : Except PyExn Bool
  pageText : Except PyExn (List Char)
  extract : SearchResult
  now : Int

/-- `GoogleAISearcher._navigate_to_new_search` (searcher.py lines
1451-1495); falls back to a fresh `search` when no session is alive. -/
def syncNavigateToNewSearch (st : SyncSessionState) (env : SyncNavEnv)
    (searchEnv : SyncSearchEnv) (browserPath : Option (List Char))
    (useUserData : Bool) (q language : List Char) :
    SearchResult × SyncSessionState :=
  if !st.sessionActive || !st.page then
    syncSearch st searchEnv browserPath useUserData q language
  else
    match env.goto with
    | Except.error e =>
      (failResult q ("搜索失败: ".toList ++ e.msg), syncCloseSession st)
    | Except.ok _ =>
    match env.waitAiContent with
    | Except.error e =>
      (failResult q ("搜索失败: ".toList ++ e.msg), syncCloseSession st)
    | Except.ok _ =>
    match env.waitStreaming with
    | Except.error e =>
      (failResult q ("搜索失败: ".toList ++ e.msg), syncCloseSession st)
    | Except.ok _ =>
    match env.pageText with
    | Except.error e =>
      (failResult q ("搜索失败: ".toList ++ e.msg), syncCloseSession st)
    | Except.ok content =>
      if isCaptchaPage content then
        (failResult q "需要验证，请重新搜索".toList, syncCloseSession st)
      else
        let result := { env.extract with query := q }
        -- lines 1482-1483: reset the diff baseline to the new full answer
        (result, { st with lastAiAnswer := result.aiAnswer,
                           lastActivityTime := env.now })

/-- Oracle environment for one sync `continue_conversation` call. -/
structure SyncContinueEnv where
  now : Int
  hasNow : Int
  nowEnd : Int
  searchEnv : SyncSearchEnv
  findInput : Except PyExn Bool
  interact : Except PyExn Unit
  hasJs : Except PyExn Bool
  submitJs : Except PyExn Bool
  waitAiContent : Except PyExn Unit
  waitStreaming : Except PyExn Bool
  pageText : Except PyExn (List Char)
  extract : SearchResult
  navEnv : SyncNavEnv
  navEnvExc : SyncNavEnv

/-- Main-path tail of the sync `continue_conversation`
(searcher.py lines 1389-1433): waits, CAPTCHA check, extraction, inline
incremental diffing, then the baseline update at lines 1428-1430.  Raised
exceptions are reported to the caller for its handler. -/
def syncContinueTail (st : SyncSessionState) (env : SyncContinueEnv)
    (q : List Char) : Except PyExn (SearchResult × SyncSessionState) :=
  match env.waitAiContent with
  | Except.error e => Except.error e
  | Except.ok _ =>
  match env.waitStreaming with
  | Except.error e => Except.error e
  | Except.ok _ =>
  match env.pageText with
  | Except.error e => Except.error e
  | Except.ok content =>
    if isCaptchaPage content then
      Except.ok (failResult q "需要验证，请重新搜索".toList, syncCloseSession st)
    else
      let result1 : SearchResult := { env.extract with query := q }
        let fullPageAnswer := result1.aiAnswer
        -- lines 1415-1426: inline incremental extraction
        let result2 :=
          if result1.success ∧ st.lastAiAnswer ≠ [] then
            if pyIn fullPageAnswer st.lastAiAnswer then
              let lastEndPos := (findSub fullPageAnswer st.lastAiAnswer).getD 0 +
                st.lastAiAnswer.length
              let newContent := pyStrip (fullPageAnswer.drop lastEndPos)
              if newContent ≠ [] then
                { result1 with
                  aiAnswer := removeUserQueryFromContent newContent q }
              else result1
            else result1
          else result1
        -- lines 1428-1430: the baseline keeps the FULL page answer
        Except.ok (result2, { st with lastAiAnswer := fullPageAnswer,
                                      lastActivityTime := env.nowEnd })

/-- `GoogleAISearcher.continue_conversation` (searcher.py lines 1346-1449).
Without an active session it falls back to `search`; exceptions from the
body run `_navigate_to_new_search` (line 1442). -/
def syncContinueConversation (st : SyncSessionState) (env : SyncContinueEnv)
    (browserPath : Option (List Char)) (useUserData : Bool) (q : List Char) :
    SearchResult × SyncSessionState :=
  let st0 := { st with lastActivityTime := env.now }
  match syncHasActiveSession st0 env.hasNow with
  | (false, st1) =>
    syncSearch st1 env.searchEnv browserPath useUserData q "zh-CN".toList
  | (true, st1) =>
    let onExn := fun (_e : PyExn) =>
      syncNavigateToNewSearch st1 env.navEnvExc env.searchEnv browserPath
        useUserData q "zh-CN".toList
    match env.findInput with
    | Except.error e => onExn e
    | Except.ok true =>
      match env.interact with
      | Except.error e => onExn e
      | Except.ok _ =>
        match syncContinueTail st1 env q with
        | Except.ok rs => rs
        | Except.error e => onExn e
    | Except.ok false =>
      match env.hasJs with
      | Except.error e => onExn e
      | Except.ok false =>
        syncNavigateToNewSearch st1 env.navEnv env.searchEnv browserPath
          useUserData q "zh-CN".toList
      | Except.ok true =>
        match env.submitJs with
        | Except.error e => onExn e
        | Except.ok false =>
          syncNavigateToNewSearch st1 env.navEnv env.searchEnv browserPath
            useUserData q "zh-CN".toList
        | Except.ok true =>
          match syncContinueTail st1 env q with
          | Except.ok rs => rs
          | Except.error e => onExn e

/-- Oracle environment for one async `search` call. -/
structure AsyncSearchEnv where
  browserErr : List Char
  ensure : AsyncSessionState → Bool × AsyncSessionState
  setupBlocking : Except PyExn Unit
  navigate : Bool × Option (List Char)
  waitAiContent : Except PyExn Bool
  waitStreaming : Except PyExn Bool
  pageText : Except PyExn (List Char)
  intervention : Except PyExn SearchResult
  extract : SearchResult
  nowAfter : Int

/-- `AsyncGoogleAISearcher.search` (searcher.py lines 3724-3851).  The
CAPTCHA probe swallows its own exceptions, including one raised by the
intervention handler it may start (inner try, lines 3814-3822); the
catch-all (line 3835) closes the session and fails with `str(e)`. -/
def asyncSearch (st : AsyncSessionState) (env : AsyncSearchEnv)
    (browserPath : Option (List Char)) (q _language : List Char) :
    SearchResult × AsyncSessionState :=
  if browserPath = none then
    let msg := if env.browserErr ≠ [] then env.browserErr
      else "未找到可用的浏览器（Chrome 或 Edge）".toList
    (failResult q msg, st)
  else
    match env.ensure st with
    | (false, st1) => (failResult q "无法启动浏览器会话".toList, st1)
    | (true, st1) =>
      match env.setupBlocking with
      | Except.error e => (failResult q e.msg, asyncCloseSession st1)
      | Except.ok _ =>
        if !env.navigate.1 then
          match env.intervention with
          | Except.ok r => (r, st1)
          | Except.error e => (failResult q e.msg, asyncCloseSession st1)
        else
          match env.waitAiContent with
          | Except.error e => (failResult q e.msg, asyncCloseSession st1)
          | Except.ok _ =>
          match env.waitStreaming with
          | Except.error e => (failResult q e.msg, asyncCloseSession st1)
          | Except.ok _ =>
            let captchaHit : Bool :=
              st1.tab &&
                match env.pageText with
                | Except.ok content => isCaptchaPage content
                | Except.error _ => false
            if captchaHit then
              match env.intervention with
              | Except.ok r => (r, st1)
              | Except.error _ =>
                -- the inner except (line 3821) swallows this too and the
                -- flow reaches extraction
                let result := { env.extract with query := q }
                let st2 := { st1 with lastAiAnswer := result.aiAnswer,
                                      lastActivityTime := env.nowAfter }
                (result, st2)
            else
              -- the async `_extract_ai_answer` (lines 3051-3322) catches
              -- every exception (with a fallback extractor) and always
              -- returns a `SearchResult`
              let result := { env.extract with query := q }
              -- lines 3829-3830: baseline := full extracted answer
              let st2 := { st1 with lastAiAnswer := result.aiAnswer,
                                    lastActivityTime := env.nowAfter }
              (result, st2)

/-- Oracle environment for one async `continue_conversation` call. -/
structure AsyncContinueEnv where
  hasNow : Int
  nowEnd : Int
  searchEnv : AsyncSearchEnv
  findInput : Except PyExn Bool
  submit : Except PyExn Bool
  waitStreaming : Except PyExn Bool
  extract : SearchResult
  extractFull : SearchResult

/-- `AsyncGoogleAISearcher.continue_conversation`
(searcher.py lines 4070-4186): incremental extraction via
`_extract_incremental_content`, then (line 4160-4163) on success a second
full extraction becomes the new baseline; every exception falls back to a
fresh `search`. -/
def asyncContinueConversation (st : AsyncSessionState) (env : AsyncContinueEnv)
    (browserPath : Option (List Char)) (q : List Char) :
    SearchResult × AsyncSessionState :=
  match asyncHasActiveSession st env.hasNow with
  | (false, st1) =>
    asyncSearch st1 env.searchEnv browserPath q "zh-CN".toList
  | (true, st1) =>
    let previousAiAnswer := st1.lastAiAnswer
    let onExn := fun (_e : PyExn) =>
      asyncSearch st1 env.searchEnv browserPath q "zh-CN".toList
    match env.findInput with
    | Except.error e => onExn e
    | Except.ok false => asyncSearch st1 env.searchEnv browserPath q "zh-CN".toList
    | Except.ok true =>
      match env.submit with
      | Except.error e => onExn e
      | Except.ok false => asyncSearch st1 env.searchEnv browserPath q "zh-CN".toList
      | Except.ok true =>
        match env.waitStreaming with
        | Except.error e => onExn e
        | Except.ok _ =>
          let result1 : SearchResult := { env.extract with query := q }
          let result2 :=
            if result1.success ∧ result1.aiAnswer ≠ [] ∧ previousAiAnswer ≠ [] then
              let incrementalContent := extractIncrementalContent
                result1.aiAnswer previousAiAnswer q
              if incrementalContent ≠ [] then
                { result1 with aiAnswer := incrementalContent }
              else result1
            else result1
          if result2.success then
            (result2, { st1 with lastAiAnswer := env.extractFull.aiAnswer,
                                 lastActivityTime := env.nowEnd })
          else
            (result2, { st1 with lastActivityTime := env.nowEnd })

/-- An oracle call result is message-well-formed when a raised exception
carries non-empty text (`str(e) != ""`). -/
def exnWF {α : Type} (x : Except PyExn α) : Prop :=
  ∀ e, x = Except.error e → e.msg ≠ []

/-- A component `SearchResult` is message-well-formed when failure carries a
non-empty error. -/
def resWF (r : SearchResult) : Prop :=
  r.success = false → r.error ≠ []

/-- A fallible call returning a `SearchResult` is message-well-formed. -/
def exnResWF (x : Except PyExn SearchResult) : Prop :=
  exnWF x ∧ ∀ r, x = Except.ok r → resWF r

/-- Message-well-formedness of a sync `search` environment. -/
def syncSearchEnvWF (env : SyncSearchEnv) : Prop :=
  exnWF env.importPw ∧ exnWF env.goto ∧ exnWF env.waitAiContent ∧
    exnWF env.waitStreaming ∧ exnWF env.pageText ∧ resWF env.extract ∧
    exnResWF env.intervention ∧ exnResWF env.captchaHandler ∧
    exnWF env.launch ∧ exnWF env.newPage ∧ exnWF env.newGoto ∧
    exnWF env.newWaitAiContent ∧ exnWF env.newPageText ∧
    resWF env.newExtract ∧ exnResWF env.newIntervention ∧
    exnResWF env.newCaptchaHandler

/-- Message-well-formedness of a sync `_navigate_to_new_search`
environment. -/
def syncNavEnvWF (env : SyncNavEnv) : Prop :=
  resWF env.extract

/-- Message-well-formedness of a sync `continue_conversation`
environment. -/
def syncContinueEnvWF (env : SyncContinueEnv) : Prop :=
  syncSearchEnvWF env.searchEnv ∧ resWF env.extract ∧
    syncNavEnvWF env.navEnv ∧ syncNavEnvWF env.navEnvExc

/-- Message-well-formedness of an async `search` environment. -/
def asyncSearchEnvWF (env : AsyncSearchEnv) : Prop :=
  exnWF env.setupBlocking ∧ exnWF env.waitAiContent ∧
    exnWF env.waitStreaming ∧ exnResWF env.intervention ∧
    resWF env.extract

/-- Message-well-formedness of an async `continue_conversation`
environment. -/
def asyncContinueEnvWF (env : AsyncContinueEnv) : Prop :=
  asyncSearchEnvWF env.searchEnv ∧ resWF env.extract

/-!
Theorems.  Each claim of the specification audit has exactly one named
theorem below (with a witness when the statement carries hypotheses, and a
counterexample where the original claim fails on the code).
-/

/-- Helper: `findSome?` over a list on which the function is everywhere
`none` yields `none`. -/
theorem findSome?_eq_none_of_forall {α β : Type} (l : List α) (f : α → Option β)
    (h : ∀ v ∈ l, f v = none) : l.findSome? f = none := by
  induction l with
  | nil => rfl
  | cons a t ih =>
    rw [List.findSome?_cons, h a (List.mem_cons_self a t)]
    exact ih (fun v hv => h v (List.mem_cons_of_mem a hv))

/-- C1 counterexample: with no proxy environment variable set and both the
SOCKS5 port 10808 and the HTTP port 10809 open, the async `_detect_proxy`
returns the SOCKS5 proxy URL, not an HTTP-scheme one. -/
theorem asyncDetectProxy_socks5_counterexample :
    asyncDetectProxy (fun _ => none) (fun p => p == 10808 || p == 10809) =
      some "socks5://127.0.0.1:10808".toList ∧
    isHttpScheme "socks5://127.0.0.1:10808".toList = false := by
  constructor
  · rfl
  · decide

/-- C1 (amended): with no proxy environment variable set, the sync
`GoogleAISearcher._detect_proxy` returns an HTTP-scheme proxy URL whenever
both an HTTP-scheme and a SOCKS5-scheme port from its probe list are open
(its probe list puts every HTTP port before every SOCKS5 port); the async
`AsyncGoogleAISearcher._detect_proxy` instead probes the SOCKS5 port 10808
first and returns the SOCKS5 URL whenever that port is open, even if an
HTTP port is open as well. -/
theorem detectProxy_http_preference_sync_only
    (envGet : List Char → Option (List Char)) (portOpen : Nat → Bool)
    (henv : ∀ v ∈ syncProxyEnvVars, envGet v = none)
    (hhttp : ∃ pu ∈ syncCommonPorts, isHttpScheme pu.2 = true ∧ portOpen pu.1 = true)
    (_hsocks : ∃ pu ∈ syncCommonPorts, isSocks5Scheme pu.2 = true ∧ portOpen pu.1 = true) :
    (∃ url, syncDetectProxy envGet portOpen = some url ∧ isHttpScheme url = true) ∧
    (portOpen 10808 = true →
      asyncDetectProxy envGet portOpen = some "socks5://127.0.0.1:10808".toList) := by
  constructor
  · -- sync part: the first open port of the probe list is an HTTP one
    have hopen : portOpen 10809 = true ∨ portOpen 7890 = true := by
      obtain ⟨pu, hmem, hscheme, hport⟩ := hhttp
      fin_cases hmem
      · exact Or.inl hport
      · exact Or.inr hport
      · exact absurd hscheme (by decide)
      · exact absurd hscheme (by decide)
      · exact absurd hscheme (by decide)
    unfold syncDetectProxy detectProxyWith
    rw [findSome?_eq_none_of_forall _ _ henv]
    by_cases p1 : portOpen 10809 = true
    · refine ⟨"http://127.0.0.1:10809".toList, ?_, by decide⟩
      simp [syncCommonPorts, List.find?, p1]
    · have p2 : portOpen 7890 = true := by
        rcases hopen with h | h
        · exact absurd h p1
        · exact h
      have p1f : portOpen 10809 = false := by
        rwa [Bool.not_eq_true] at p1
      refine ⟨"http://127.0.0.1:7890".toList, ?_, by decide⟩
      simp [syncCommonPorts, List.find?, p1f, p2]
  · -- async part: the SOCKS5 port 10808 is probed first
    intro hp
    have hsub : ∀ v ∈ asyncProxyEnvVars, v ∈ syncProxyEnvVars := by decide
    unfold asyncDetectProxy detectProxyWith
    rw [findSome?_eq_none_of_forall _ _ (fun v hv => henv v (hsub v hv))]
    simp [asyncCommonPorts, List.find?, hp]

/-- C1 witness: the amended preference theorem applied at the concrete
environment with no variables set and ports 7890 (HTTP) and 1080 (SOCKS5)
open. -/
theorem detectProxy_http_preference_sync_only_witness :
    (∃ url, syncDetectProxy (fun _ => none) (fun p => p == 7890 || p == 1080) =
        some url ∧ isHttpScheme url = true) ∧
    ((fun p : Nat => p == 7890 || p == 1080) 10808 = true →
      asyncDetectProxy (fun _ => none) (fun p => p == 7890 || p == 1080) =
        some "socks5://127.0.0.1:10808".toList) :=
  detectProxy_http_preference_sync_only (fun _ => none)
    (fun p => p == 7890 || p == 1080)
    (fun _ _ => rfl)
    ⟨(7890, "http://127.0.0.1:7890".toList), by decide⟩
    ⟨(1080, "socks5://127.0.0.1:1080".toList), by decide⟩

/-- C5 counterexample: an async session whose timeout has elapsed
(last activity at 1, now 1000): `has_active_session` returns false but
performs no teardown — the state is returned untouched, still active and
still holding the browser resource. -/
theorem asyncHasActiveSession_no_teardown_counterexample :
    asyncHasActiveSession
        ⟨true, true, true, 1, []⟩ 1000 =
      (false, ⟨true, true, true, 1, []⟩) ∧
    (asyncHasActiveSession ⟨true, true, true, 1, []⟩ 1000).2.sessionActive = true := by
  constructor
  · rfl
  · rfl

/-- C5 (amended): both `has_active_session` variants return true only if a
session exists and (when an activity timestamp is recorded) the time since
the last activity is at most `SESSION_TIMEOUT` (300 s).  When the timeout
has elapsed, the sync variant tears the session down as a side effect
(releasing every resource and marking the session inactive) before
returning false, while the async variant only returns false and leaves the
session state — including its resources — untouched (its teardown is
deferred to `_ensure_session`). -/
theorem hasActiveSession_timeout
    (st : SyncSessionState) (ast : AsyncSessionState) (now : Int)
    (hsync : 0 < st.lastActivityTime) (hasync : 0 < ast.lastActivityTime) :
    ((syncHasActiveSession st now).1 = true →
      st.sessionActive = true ∧ st.page = true ∧
        now - st.lastActivityTime ≤ sessionTimeout) ∧
    (st.sessionActive = true → st.page = true →
      sessionTimeout < now - st.lastActivityTime →
      syncHasActiveSession st now = (false, syncCloseSession st) ∧
        (syncCloseSession st).sessionActive = false ∧
        (syncCloseSession st).page = false ∧
        (syncCloseSession st).context = false ∧
        (syncCloseSession st).browser = false ∧
        (syncCloseSession st).playwright = false) ∧
    ((asyncHasActiveSession ast now).1 = true →
      ast.sessionActive = true ∧ ast.browser = true ∧
        now - ast.lastActivityTime ≤ sessionTimeout) ∧
    (ast.sessionActive = true → ast.browser = true →
      sessionTimeout < now - ast.lastActivityTime →
      asyncHasActiveSession ast now = (false, ast)) := by
  refine ⟨?_, ?_, ?_, ?_⟩
  · intro h
    unfold syncHasActiveSession at h
    by_cases hg : !st.sessionActive || !st.page
    · rw [if_pos hg] at h; exact absurd h (by simp)
    · rw [if_neg hg] at h
      rw [Bool.or_eq_true, Bool.not_eq_true', Bool.not_eq_true'] at hg
      push_neg at hg
      refine ⟨by simpa using hg.1, by simpa using hg.2, ?_⟩
      by_cases ht : 0 < st.lastActivityTime ∧ sessionTimeout < now - st.lastActivityTime
      · rw [if_pos ht] at h; exact absurd h (by simp)
      · rcases not_and_or.mp ht with hlt | hlt
        · exact absurd hsync hlt
        · exact le_of_not_lt hlt
  · intro ha hp ht
    have hg : (!st.sessionActive || !st.page) = false := by
      rw [ha, hp]; rfl
    refine ⟨?_, rfl, rfl, rfl, rfl, rfl⟩
    unfold syncHasActiveSession
    rw [hg]
    simp only [Bool.false_eq_true, if_false]
    rw [if_pos ⟨hsync, ht⟩]
  · intro h
    unfold asyncHasActiveSession at h
    by_cases hg : !ast.sessionActive || !ast.browser
    · rw [if_pos hg] at h; exact absurd h (by simp)
    · rw [if_neg hg] at h
      rw [Bool.or_eq_true, Bool.not_eq_true', Bool.not_eq_true'] at hg
      push_neg at hg
      refine ⟨by simpa using hg.1, by simpa using hg.2, ?_⟩
      by_cases ht : 0 < ast.lastActivityTime ∧ sessionTimeout < now - ast.lastActivityTime
      · rw [if_pos ht] at h; exact absurd h (by simp)
      · rcases not_and_or.mp ht with hlt | hlt
        · exact absurd hasync hlt
        · exact le_of_not_lt hlt
  · intro ha hb ht
    have hg : (!ast.sessionActive || !ast.browser) = false := by
      rw [ha, hb]; rfl
    unfold asyncHasActiveSession
    rw [hg]
    simp only [Bool.false_eq_true, if_false]
    rw [if_pos ⟨hasync, ht⟩]

/-- C5 witness: the timeout behaviour at concrete expired states (last
activity at 7, now 900): the sync variant closes the session, the async
variant returns the state untouched. -/
theorem hasActiveSession_timeout_witness :
    (0 : Int) < 7 ∧
    syncHasActiveSession ⟨true, true, true, true, true, 7, []⟩ 900 =
      (false, syncCloseSession ⟨true, true, true, true, true, 7, []⟩) ∧
    asyncHasActiveSession ⟨true, true, true, 7, []⟩ 900 =
      (false, ⟨true, true, true, 7, []⟩) := by
  refine ⟨by decide, ?_, ?_⟩
  · exact ((hasActiveSession_timeout ⟨true, true, true, true, true, 7, []⟩
      ⟨true, true, true, 7, []⟩ 900 (by decide) (by decide)).2.1 rfl rfl
        (by decide)).1
  · exact (hasActiveSession_timeout ⟨true, true, true, true, true, 7, []⟩
      ⟨true, true, true, 7, []⟩ 900 (by decide) (by decide)).2.2.2 rfl rfl
        (by decide)

/-- Helper: a tick with the follow-up affordance and enough content returns
true immediately (sync monitor). -/
theorem syncWaitLoop_followUp (t : StreamTick) (rest : List StreamTick)
    (lastLen stable : Nat) (hf : t.hasFollowUp = true)
    (h5 : 500 ≤ t.content.length) :
    syncWaitStreamingLoop (t :: rest) lastLen stable = true := by
  unfold syncWaitStreamingLoop
  rw [if_pos ⟨hf, h5⟩]

/-- Helper: one stable sync tick (no loading signals, unchanged length at or
above the threshold) either fires the stability return or increments the
counter. -/
theorem syncWaitLoop_stable_step (t : StreamTick) (rest : List StreamTick)
    (lastLen stable : Nat) (hf : t.hasFollowUp = false)
    (hi : t.hasLoadingIndicator = false)
    (hk : isLoadingByKeyword syncLoadingKeywords t.content = false)
    (hl : t.content.length = lastLen) (h5 : 500 ≤ lastLen) :
    syncWaitStreamingLoop (t :: rest) lastLen stable =
      if 3 ≤ stable + 1 then true
      else syncWaitStreamingLoop rest lastLen (stable + 1) := by
  conv_lhs => rw [syncWaitStreamingLoop]
  rw [if_neg (by rw [hf]; exact fun hc => by simpa using hc.1)]
  rw [if_neg (by rw [hi, hk]; simp)]
  rw [if_pos hl, if_pos (by rw [hl]; exact h5), hl]

/-- Helper: three consecutive stable sync ticks (no loading signals, length
unchanged at or above the threshold) return true whatever the initial
counter value (any follow-up affordance on the way fires even earlier). -/
theorem syncWaitLoop_stable_three (t0 t1 t2 : StreamTick)
    (rest : List StreamTick) (lastLen stable : Nat)
    (hi0 : t0.hasLoadingIndicator = false)
    (hk0 : isLoadingByKeyword syncLoadingKeywords t0.content = false)
    (hl0 : t0.content.length = lastLen)
    (hi1 : t1.hasLoadingIndicator = false)
    (hk1 : isLoadingByKeyword syncLoadingKeywords t1.content = false)
    (hl1 : t1.content.length = lastLen)
    (hi2 : t2.hasLoadingIndicator = false)
    (hk2 : isLoadingByKeyword syncLoadingKeywords t2.content = false)
    (hl2 : t2.content.length = lastLen)
    (h5 : 500 ≤ lastLen) :
    syncWaitStreamingLoop (t0 :: t1 :: t2 :: rest) lastLen stable = true := by
  by_cases hf0 : t0.hasFollowUp = true
  · exact syncWaitLoop_followUp t0 _ _ _ hf0 (by rw [hl0]; exact h5)
  · rw [syncWaitLoop_stable_step t0 _ _ _ (by simpa using hf0) hi0 hk0 hl0 h5]
    by_cases h1 : 3 ≤ stable + 1
    · rw [if_pos h1]
    · rw [if_neg h1]
      by_cases hf1 : t1.hasFollowUp = true
      · exact syncWaitLoop_followUp t1 _ _ _ hf1 (by rw [hl1]; exact h5)
      · rw [syncWaitLoop_stable_step t1 _ _ _ (by simpa using hf1) hi1 hk1 hl1 h5]
        by_cases h2 : 3 ≤ stable + 1 + 1
        · rw [if_pos h2]
        · rw [if_neg h2]
          by_cases hf2 : t2.hasFollowUp = true
          · exact syncWaitLoop_followUp t2 _ _ _ hf2 (by rw [hl2]; exact h5)
          · rw [syncWaitLoop_stable_step t2 _ _ _ (by simpa using hf2) hi2 hk2 hl2 h5]
            rw [if_pos (by omega)]

/-- Helper: if every tick shows a loading signal and never a qualifying
follow-up, the sync loop runs out of ticks and returns false. -/
theorem syncWaitLoop_loading_false (ticks : List StreamTick)
    (h : ∀ t ∈ ticks, ¬(t.hasFollowUp = true ∧ 500 ≤ t.content.length) ∧
      (t.hasLoadingIndicator = true ∨
        isLoadingByKeyword syncLoadingKeywords t.content = true)) :
    ∀ lastLen stable, syncWaitStreamingLoop ticks lastLen stable = false := by
  induction ticks with
  | nil => intro lastLen stable; rfl
  | cons t rest ih =>
    intro lastLen stable
    obtain ⟨hnf, hload⟩ := h t (List.mem_cons_self t rest)
    unfold syncWaitStreamingLoop
    rw [if_neg hnf, if_pos (by simpa using hload)]
    exact ih (fun u hu => h u (List.mem_cons_of_mem t hu)) _ _

/-- Helper: a tick with the follow-up affordance and enough content returns
true immediately (async monitor, threshold 200). -/
theorem asyncWaitLoop_followUp (t : StreamTick) (rest : List StreamTick)
    (lastLen stable : Nat) (hf : t.hasFollowUp = true)
    (h2 : 200 ≤ t.content.length) :
    asyncWaitStreamingLoop (t :: rest) lastLen stable = true := by
  unfold asyncWaitStreamingLoop
  rw [if_pos ⟨hf, h2⟩]

/-- Helper: one stable async tick (no loading keyword, unchanged length at
or above the threshold) either fires the stability return or increments the
counter. -/
theorem asyncWaitLoop_stable_step (t : StreamTick) (rest : List StreamTick)
    (lastLen stable : Nat) (hf : t.hasFollowUp = false)
    (hk : isLoadingByKeyword asyncLoadingKeywords t.content = false)
    (hl : t.content.length = lastLen) (h2 : 200 ≤ lastLen) :
    asyncWaitStreamingLoop (t :: rest) lastLen stable =
      if 3 ≤ stable + 1 then true
      else asyncWaitStreamingLoop rest lastLen (stable + 1) := by
  conv_lhs => rw [asyncWaitStreamingLoop]
  rw [if_neg (by rw [hf]; exact fun hc => by simpa using hc.1)]
  rw [if_pos ⟨hl, by rw [hl]; exact h2⟩]
  rw [if_pos (by rw [hk]; simp), hl]

/-- Helper: three consecutive stable async ticks return true whatever the
initial counter value. -/
theorem asyncWaitLoop_stable_three (t0 t1 t2 : StreamTick)
    (rest : List StreamTick) (lastLen stable : Nat)
    (hk0 : isLoadingByKeyword asyncLoadingKeywords t0.content = false)
    (hl0 : t0.content.length = lastLen)
    (hk1 : isLoadingByKeyword asyncLoadingKeywords t1.content = false)
    (hl1 : t1.content.length = lastLen)
    (hk2 : isLoadingByKeyword asyncLoadingKeywords t2.content = false)
    (hl2 : t2.content.length = lastLen)
    (h2 : 200 ≤ lastLen) :
    asyncWaitStreamingLoop (t0 :: t1 :: t2 :: rest) lastLen stable = true := by
  by_cases hf0 : t0.hasFollowUp = true
  · exact asyncWaitLoop_followUp t0 _ _ _ hf0 (by rw [hl0]; exact h2)
  · rw [asyncWaitLoop_stable_step t0 _ _ _ (by simpa using hf0) hk0 hl0 h2]
    by_cases h1 : 3 ≤ stable + 1
    · rw [if_pos h1]
    · rw [if_neg h1]
      by_cases hf1 : t1.hasFollowUp = true
      · exact asyncWaitLoop_followUp t1 _ _ _ hf1 (by rw [hl1]; exact h2)
      · rw [asyncWaitLoop_stable_step t1 _ _ _ (by simpa using hf1) hk1 hl1 h2]
        by_cases hb2 : 3 ≤ stable + 1 + 1
        · rw [if_pos hb2]
        · rw [if_neg hb2]
          by_cases hf2 : t2.hasFollowUp = true
          · exact asyncWaitLoop_followUp t2 _ _ _ hf2 (by rw [hl2]; exact h2)
          · rw [asyncWaitLoop_stable_step t2 _ _ _ (by simpa using hf2) hk2 hl2 h2]
            rw [if_pos (by omega)]

/-- Helper: if every tick keeps a loading keyword on non-empty content and
never a qualifying follow-up, the async loop runs out of ticks and returns
false. -/
theorem asyncWaitLoop_loading_false (ticks : List StreamTick)
    (h : ∀ t ∈ ticks, ¬(t.hasFollowUp = true ∧ 200 ≤ t.content.length) ∧
      t.content ≠ [] ∧
      isLoadingByKeyword asyncLoadingKeywords t.content = true) :
    ∀ lastLen stable, asyncWaitStreamingLoop ticks lastLen stable = false := by
  induction ticks with
  | nil => intro lastLen stable; rfl
  | cons t rest ih =>
    intro lastLen stable
    obtain ⟨hnf, hne, hkw⟩ := h t (List.mem_cons_self t rest)
    have ihrest := ih (fun u hu => h u (List.mem_cons_of_mem t hu))
    conv_lhs => rw [asyncWaitStreamingLoop]
    rw [if_neg hnf]
    by_cases heq : t.content.length = lastLen ∧ 200 ≤ t.content.length
    · rw [if_pos heq, if_neg (by simp [hne, hkw])]
      exact ihrest _ _
    · rw [if_neg heq]
      by_cases hne2 : t.content.length ≠ lastLen
      · rw [if_pos hne2]; exact ihrest _ _
      · rw [if_neg hne2]; exact ihrest _ _

/-- Helper: the carried length after one more consumed tick. -/
theorem prevLenAfter_cons (L0 : Nat) (t : StreamTick) (pre : List StreamTick) :
    prevLenAfter L0 (t :: pre) = prevLenAfter t.content.length pre := rfl

/-- Helper: a sync-stable tick heads every run of length at most one. -/
theorem syncStableRunB_le_one (L k : Nat) (hk : k ≤ 1) (t : StreamTick)
    (rest : List StreamTick) (hst : syncStableTickB L t = true) :
    syncStableRunB L k (t :: rest) = true := by
  interval_cases k
  · rfl
  · show syncStableTickB L t && syncStableRunB t.content.length 0 rest = true
    rw [hst]
    rfl

/-- Helper: an async-stable tick heads every run of length at most one. -/
theorem asyncStableRunB_le_one (L k : Nat) (hk : k ≤ 1) (t : StreamTick)
    (rest : List StreamTick) (hst : asyncStableTickB L t = true) :
    asyncStableRunB L k (t :: rest) = true := by
  interval_cases k
  · rfl
  · show asyncStableTickB L t && asyncStableRunB t.content.length 0 rest = true
    rw [hst]
    rfl

/-- Helper: the sync monitor loop returns false on any run in which no tick
can fire the follow-up exit and no position starts a 3-long stability
window — the formal content of a timeout run on which no terminal
condition ever holds (covering runs with ever-growing content,
below-threshold content or persistent loading signals alike). -/
theorem syncWaitLoop_no_terminal (ticks : List StreamTick) :
    ∀ (prevLen stable : Nat),
    (∀ t ∈ ticks, ¬(t.hasFollowUp = true ∧ 500 ≤ t.content.length)) →
    (∀ k, k ≤ ticks.length →
      syncStableRunB (prevLenAfter prevLen (ticks.take k)) 3
        (ticks.drop k) = false) →
    syncStableRunB prevLen (3 - stable) ticks = false →
    (stable ≠ 0 → 500 ≤ prevLen) →
    syncWaitStreamingLoop ticks prevLen stable = false := by
  induction ticks with
  | nil =>
    intro prevLen stable _ _ _ _
    rfl
  | cons t rest ih =>
    intro prevLen stable hA hB hC hD
    have hA2 : ∀ u ∈ rest, ¬(u.hasFollowUp = true ∧ 500 ≤ u.content.length) :=
      fun u hu => hA u (List.mem_cons_of_mem t hu)
    have hB2 : ∀ k, k ≤ rest.length →
        syncStableRunB (prevLenAfter t.content.length (rest.take k)) 3
          (rest.drop k) = false := by
      intro k hk
      have h1 := hB (k + 1) (Nat.succ_le_succ hk)
      rw [List.take_succ_cons, List.drop_succ_cons, prevLenAfter_cons] at h1
      exact h1
    have hC3 : syncStableRunB t.content.length 3 rest = false := by
      have h0 := hB2 0 (Nat.zero_le _)
      rw [List.take_zero, List.drop_zero] at h0
      exact h0
    conv_lhs => rw [syncWaitStreamingLoop]
    rw [if_neg (hA t (List.mem_cons_self t rest))]
    by_cases hload : t.hasLoadingIndicator = true ∨
        isLoadingByKeyword syncLoadingKeywords t.content = true
    · rw [if_pos hload]
      exact ih _ 0 hA2 hB2 (by rw [Nat.sub_zero]; exact hC3)
        (fun hne => absurd rfl hne)
    · rw [if_neg hload]
      have hi : t.hasLoadingIndicator = false := by
        cases hhi : t.hasLoadingIndicator
        · rfl
        · exact absurd (Or.inl hhi) hload
      have hk : isLoadingByKeyword syncLoadingKeywords t.content = false := by
        cases hhk : isLoadingByKeyword syncLoadingKeywords t.content
        · rfl
        · exact absurd (Or.inr hhk) hload
      by_cases hlen : t.content.length = prevLen
      · rw [if_pos hlen]
        by_cases h5 : 500 ≤ t.content.length
        · rw [if_pos h5]
          have hst : syncStableTickB prevLen t = true := by
            have h5p : 500 ≤ prevLen := hlen ▸ h5
            simp [syncStableTickB, hi, hk, hlen, h5, h5p]
          by_cases hex : 3 ≤ stable + 1
          · exfalso
            have hrun := syncStableRunB_le_one prevLen (3 - stable)
              (by omega) t rest hst
            rw [hC] at hrun
            exact absurd hrun (by simp)
          · rw [if_neg hex]
            have hsplit : 3 - stable = (3 - (stable + 1)) + 1 := by omega
            rw [hsplit, syncStableRunB, hst] at hC
            exact ih _ (stable + 1) hA2 hB2 (by simpa using hC) (fun _ => h5)
        · rw [if_neg h5]
          have hst0 : stable = 0 := by
            by_contra hne
            exact h5 (hlen ▸ hD hne)
          subst hst0
          exact ih _ 0 hA2 hB2 (by rw [Nat.sub_zero]; exact hC3)
            (fun hne => absurd rfl hne)
      · rw [if_neg hlen]
        exact ih _ 0 hA2 hB2 (by rw [Nat.sub_zero]; exact hC3)
          (fun hne => absurd rfl hne)

/-- Helper: the async monitor loop returns false on any run in which no
tick can fire the follow-up exit and no position starts a 3-long stability
window. -/
theorem asyncWaitLoop_no_terminal (ticks : List StreamTick) :
    ∀ (prevLen stable : Nat),
    (∀ t ∈ ticks, ¬(t.hasFollowUp = true ∧ 200 ≤ t.content.length)) →
    (∀ k, k ≤ ticks.length →
      asyncStableRunB (prevLenAfter prevLen (ticks.take k)) 3
        (ticks.drop k) = false) →
    asyncStableRunB prevLen (3 - stable) ticks = false →
    (stable ≠ 0 → 200 ≤ prevLen) →
    asyncWaitStreamingLoop ticks prevLen stable = false := by
  induction ticks with
  | nil =>
    intro prevLen stable _ _ _ _
    rfl
  | cons t rest ih =>
    intro prevLen stable hA hB hC hD
    have hA2 : ∀ u ∈ rest, ¬(u.hasFollowUp = true ∧ 200 ≤ u.content.length) :=
      fun u hu => hA u (List.mem_cons_of_mem t hu)
    have hB2 : ∀ k, k ≤ rest.length →
        asyncStableRunB (prevLenAfter t.content.length (rest.take k)) 3
          (rest.drop k) = false := by
      intro k hk
      have h1 := hB (k + 1) (Nat.succ_le_succ hk)
      rw [List.take_succ_cons, List.drop_succ_cons, prevLenAfter_cons] at h1
      exact h1
    have hC3 : asyncStableRunB t.content.length 3 rest = false := by
      have h0 := hB2 0 (Nat.zero_le _)
      rw [List.take_zero, List.drop_zero] at h0
      exact h0
    conv_lhs => rw [asyncWaitStreamingLoop]
    rw [if_neg (hA t (List.mem_cons_self t rest))]
    by_cases hmain : t.content.length = prevLen ∧ 200 ≤ t.content.length
    · rw [if_pos hmain]
      by_cases hkw : t.content ≠ [] ∧
          isLoadingByKeyword asyncLoadingKeywords t.content = true
      · rw [if_neg (not_not.mpr hkw)]
        exact ih _ 0 hA2 hB2 (by rw [Nat.sub_zero]; exact hC3)
          (fun hne => absurd rfl hne)
      · rw [if_pos hkw]
        have hst : asyncStableTickB prevLen t = true := by
          simp only [asyncStableTickB, Bool.and_eq_true, beq_iff_eq,
            decide_eq_true_eq, Bool.not_eq_true']
          refine ⟨⟨hmain.1, hmain.2⟩, ?_⟩
          cases hemp : t.content.isEmpty with
          | true => rfl
          | false =>
            cases hkw2 : isLoadingByKeyword asyncLoadingKeywords t.content with
            | false => rfl
            | true =>
              exfalso
              exact hkw ⟨by simpa [List.isEmpty_iff] using hemp, hkw2⟩
        by_cases hex : 3 ≤ stable + 1
        · exfalso
          have hrun := asyncStableRunB_le_one prevLen (3 - stable)
            (by omega) t rest hst
          rw [hC] at hrun
          exact absurd hrun (by simp)
        · rw [if_neg hex]
          have hsplit : 3 - stable = (3 - (stable + 1)) + 1 := by omega
          rw [hsplit, asyncStableRunB, hst] at hC
          exact ih _ (stable + 1) hA2 hB2 (by simpa using hC)
            (fun _ => hmain.2)
    · rw [if_neg hmain]
      by_cases hne : t.content.length ≠ prevLen
      · rw [if_pos hne]
        exact ih _ 0 hA2 hB2 (by rw [Nat.sub_zero]; exact hC3)
          (fun hne2 => absurd rfl hne2)
      · rw [if_neg hne]
        have hlen : t.content.length = prevLen := not_not.mp hne
        have hst0 : stable = 0 := by
          by_contra hne2
          exact hmain ⟨hlen, hlen ▸ hD hne2⟩
        subst hst0
        exact ih _ 0 hA2 hB2 (by rw [Nat.sub_zero]; exact hC3)
          (fun hne2 => absurd rfl hne2)

/-- C8 (confirmed): terminal conditions of `_wait_for_streaming_complete`
over the tick sequence of polled page states, for the sync monitor
(minimum threshold 500, loading indicator and loading keyword both reset)
and the async monitor (minimum threshold 200, loading keyword resets):
(i) a tick with the follow-up affordance and content length at or above
the threshold returns true immediately, whatever the loop state;
(ii) three consecutive ticks with the length unchanged, at or above the
threshold and free of loading signals return true, whatever the initial
stability counter; (iii) if no tick up to `max_wait` can fire the
follow-up exit and no position of the run starts a 3-long stability
window — that is, no terminal condition ever holds, whether the content
keeps growing, stays below the threshold or keeps showing loading
signals — the monitor returns false when `max_wait` elapses. -/
theorem waitForStreamingComplete_terminal_conditions :
    (∀ (t : StreamTick) (rest : List StreamTick) (lastLen stable : Nat),
      t.hasFollowUp = true → 500 ≤ t.content.length →
      syncWaitStreamingLoop (t :: rest) lastLen stable = true) ∧
    (∀ (t0 t1 t2 : StreamTick) (rest : List StreamTick) (lastLen stable : Nat),
      t0.hasLoadingIndicator = false →
      isLoadingByKeyword syncLoadingKeywords t0.content = false →
      t0.content.length = lastLen →
      t1.hasLoadingIndicator = false →
      isLoadingByKeyword syncLoadingKeywords t1.content = false →
      t1.content.length = lastLen →
      t2.hasLoadingIndicator = false →
      isLoadingByKeyword syncLoadingKeywords t2.content = false →
      t2.content.length = lastLen →
      500 ≤ lastLen →
      syncWaitStreamingLoop (t0 :: t1 :: t2 :: rest) lastLen stable = true) ∧
    (∀ (tick : Nat → StreamTick) (maxWaitSeconds : Nat),
      (∀ t ∈ (List.range (maxWaitSeconds * 2)).map tick,
        ¬(t.hasFollowUp = true ∧ 500 ≤ t.content.length)) →
      (∀ k, k ≤ ((List.range (maxWaitSeconds * 2)).map tick).length →
        syncStableRunB
          (prevLenAfter 0 (((List.range (maxWaitSeconds * 2)).map tick).take k))
          3 (((List.range (maxWaitSeconds * 2)).map tick).drop k) = false) →
      syncWaitStreaming tick maxWaitSeconds = false) ∧
    (∀ (t : StreamTick) (rest : List StreamTick) (lastLen stable : Nat),
      t.hasFollowUp = true → 200 ≤ t.content.length →
      asyncWaitStreamingLoop (t :: rest) lastLen stable = true) ∧
    (∀ (t0 t1 t2 : StreamTick) (rest : List StreamTick) (lastLen stable : Nat),
      isLoadingByKeyword asyncLoadingKeywords t0.content = false →
      t0.content.length = lastLen →
      isLoadingByKeyword asyncLoadingKeywords t1.content = false →
      t1.content.length = lastLen →
      isLoadingByKeyword asyncLoadingKeywords t2.content = false →
      t2.content.length = lastLen →
      200 ≤ lastLen →
      asyncWaitStreamingLoop (t0 :: t1 :: t2 :: rest) lastLen stable = true) ∧
    (∀ (tabPresent : Bool) (tick : Nat → StreamTick) (maxWaitSeconds : Nat),
      (∀ t ∈ (List.range (maxWaitSeconds * 2)).map tick,
        ¬(t.hasFollowUp = true ∧ 200 ≤ t.content.length)) →
      (∀ k, k ≤ ((List.range (maxWaitSeconds * 2)).map tick).length →
        asyncStableRunB
          (prevLenAfter 0 (((List.range (maxWaitSeconds * 2)).map tick).take k))
          3 (((List.range (maxWaitSeconds * 2)).map tick).drop k) = false) →
      asyncWaitStreaming tabPresent tick maxWaitSeconds = false) := by
  refine ⟨syncWaitLoop_followUp, syncWaitLoop_stable_three, ?_, asyncWaitLoop_followUp,
    ?_, ?_⟩
  · intro tick maxWaitSeconds hA hB
    unfold syncWaitStreaming
    refine syncWaitLoop_no_terminal _ 0 0 hA hB ?_ (fun hne => absurd rfl hne)
    have h0 := hB 0 (Nat.zero_le _)
    rw [List.take_zero, List.drop_zero] at h0
    rw [Nat.sub_zero]
    exact h0
  · intro t0 t1 t2 rest lastLen stable hk0 hl0 hk1 hl1 hk2 hl2 h2
    exact asyncWaitLoop_stable_three t0 t1 t2 rest lastLen stable hk0 hl0 hk1 hl1
      hk2 hl2 h2
  · intro tabPresent tick maxWaitSeconds hA hB
    unfold asyncWaitStreaming
    by_cases htab : (!tabPresent) = true
    · rw [if_pos htab]
    · rw [if_neg htab]
      refine asyncWaitLoop_no_terminal _ 0 0 hA hB ?_ (fun hne => absurd rfl hne)
      have h0 := hB 0 (Nat.zero_le _)
      rw [List.take_zero, List.drop_zero] at h0
      rw [Nat.sub_zero]
      exact h0

set_option maxRecDepth 40000 in
/-- C8 witness: concrete runs of the three terminal conditions — an
immediate follow-up tick, three stable ticks, and a loading-saturated run
that times out — through both monitors. -/
theorem waitForStreamingComplete_terminal_conditions_witness :
    syncWaitStreamingLoop [⟨List.replicate 500 'a', false, true⟩] 0 0 = true ∧
    syncWaitStreamingLoop
      [⟨List.replicate 500 'a', false, false⟩,
       ⟨List.replicate 500 'a', false, false⟩,
       ⟨List.replicate 500 'a', false, false⟩] 500 0 = true ∧
    syncWaitStreaming
      (fun i => ⟨List.replicate (600 + i) (Char.ofNat 97), false, false⟩) 2 =
      false ∧
    asyncWaitStreamingLoop [⟨List.replicate 200 'b', false, true⟩] 0 0 = true ∧
    asyncWaitStreamingLoop
      [⟨List.replicate 200 'b', false, false⟩,
       ⟨List.replicate 200 'b', false, false⟩,
       ⟨List.replicate 200 'b', false, false⟩] 200 0 = true ∧
    asyncWaitStreaming true
      (fun i => ⟨List.replicate (300 + i) (Char.ofNat 98), false, false⟩) 2 =
      false := by
  have h := waitForStreamingComplete_terminal_conditions
  refine ⟨?_, ?_, ?_, ?_, ?_, ?_⟩
  · exact h.1 _ _ _ _ rfl (by simp)
  · exact h.2.1 _ _ _ _ _ _ rfl (by decide) (by simp) rfl (by decide) (by simp)
      rfl (by decide) (by simp) (by decide)
  · exact h.2.2.1 _ _ (by decide) (by decide)
  · exact h.2.2.2.1 _ _ _ _ rfl (by simp)
  · exact h.2.2.2.2.1 _ _ _ _ _ _ (by decide) (by simp) (by decide) (by simp)
      (by decide) (by simp) (by decide)
  · exact h.2.2.2.2.2 _ _ _ (by decide) (by decide)

/-- Helper: a failure result with a non-empty message is well-formed. -/
theorem failResult_resWF (q msg : List Char) (h : msg ≠ []) :
    resWF (failResult q msg) := fun _ => h

/-- Helper: updating the query of a result preserves well-formedness. -/
theorem resWF_setQuery (r : SearchResult) (q : List Char) (h : resWF r) :
    resWF { r with query := q } := h

/-- Helper: the new-session search path only fails with non-empty
messages. -/
theorem syncSearchNewSession_resWF (env : SyncSearchEnv) (q : List Char)
    (h : syncSearchEnvWF env) : resWF (syncSearchNewSession env q) := by
  obtain ⟨_, _, _, _, _, _, _, _, hlaunch, hnewPage, hnewGoto, hnewWait,
    hnewText, hnewExt, hnewInt, hnewCap⟩ := h
  unfold syncSearchNewSession
  cases hl : env.launch with
  | error e => exact failResult_resWF _ _ (hlaunch e hl)
  | ok _ =>
  cases hp : env.newPage with
  | error e => exact failResult_resWF _ _ (hnewPage e hp)
  | ok _ =>
  cases hg : env.newGoto with
  | error e =>
    cases hi : env.newIntervention with
    | ok r => exact hnewInt.2 r hi
    | error e2 => exact failResult_resWF _ _ (hnewInt.1 e2 hi)
  | ok _ =>
  cases hw : env.newWaitAiContent with
  | error e => exact failResult_resWF _ _ (hnewWait e hw)
  | ok _ =>
  cases ht : env.newPageText with
  | error e => exact failResult_resWF _ _ (hnewText e ht)
  | ok content =>
    simp only []
    cases hcap : isCaptchaPage content with
    | true =>
      cases hc : env.newCaptchaHandler with
      | ok r => exact hnewCap.2 r hc
      | error e => exact failResult_resWF _ _ (hnewCap.1 e hc)
    | false => exact resWF_setQuery _ q hnewExt

/-- Helper: the persistent-session search path only fails with non-empty
messages. -/
theorem syncSearchPersistent_resWF (st : SyncSessionState)
    (env : SyncSearchEnv) (q : List Char) (h : syncSearchEnvWF env) :
    resWF (syncSearchPersistent st env q).1 := by
  obtain ⟨_, hgoto, hwait, hstream, htext, hext, hint, hcaph, _⟩ := h
  unfold syncSearchPersistent
  cases he : env.ensure st with
  | mk ok st1 =>
  cases ok with
  | false => exact failResult_resWF _ _ (by decide)
  | true =>
  cases hg : env.goto with
  | error e =>
    cases hi : env.intervention with
    | ok r => exact hint.2 r hi
    | error e2 => exact failResult_resWF _ _ (hint.1 e2 hi)
  | ok _ =>
  cases hw : env.waitAiContent with
  | error e => exact failResult_resWF _ _ (hwait e hw)
  | ok _ =>
  cases hs : env.waitStreaming with
  | error e => exact failResult_resWF _ _ (hstream e hs)
  | ok _ =>
  cases ht : env.pageText with
  | error e => exact failResult_resWF _ _ (htext e ht)
  | ok content =>
    simp only []
    cases hcap : isCaptchaPage content with
    | true =>
      cases hc : env.captchaHandler with
      | ok r => exact hcaph.2 r hc
      | error e => exact failResult_resWF _ _ (hcaph.1 e hc)
    | false => exact resWF_setQuery _ q hext

/-- Helper: the sync `search` only fails with non-empty messages. -/
theorem syncSearch_resWF (st : SyncSessionState) (env : SyncSearchEnv)
    (browserPath : Option (List Char)) (useUserData : Bool)
    (q language : List Char) (h : syncSearchEnvWF env) :
    resWF (syncSearch st env browserPath useUserData q language).1 := by
  unfold syncSearch
  cases browserPath with
  | none => exact failResult_resWF _ _ (by decide)
  | some bp =>
    cases useUserData with
    | true => exact syncSearchPersistent_resWF _ env q h
    | false =>
      cases hi : env.importPw with
      | error e => exact failResult_resWF _ _ (h.1 e hi)
      | ok _ => exact syncSearchNewSession_resWF env q h

/-- Helper: the sync `_navigate_to_new_search` only fails with non-empty
messages. -/
theorem syncNavigateToNewSearch_resWF (st : SyncSessionState)
    (env : SyncNavEnv) (searchEnv : SyncSearchEnv)
    (browserPath : Option (List Char)) (useUserData : Bool)
    (q language : List Char) (hs : syncSearchEnvWF searchEnv)
    (h : syncNavEnvWF env) :
    resWF (syncNavigateToNewSearch st env searchEnv browserPath useUserData
      q language).1 := by
  unfold syncNavigateToNewSearch
  cases hactive : (!st.sessionActive || !st.page) with
  | true => exact syncSearch_resWF st searchEnv browserPath useUserData q language hs
  | false =>
    cases hg : env.goto with
    | error e => exact failResult_resWF _ _ (by simp)
    | ok _ =>
    cases hw : env.waitAiContent with
    | error e => exact failResult_resWF _ _ (by simp)
    | ok _ =>
    cases hst : env.waitStreaming with
    | error e => exact failResult_resWF _ _ (by simp)
    | ok _ =>
    cases ht : env.pageText with
    | error e => exact failResult_resWF _ _ (by simp)
    | ok content =>
      simp only []
      cases hcap : isCaptchaPage content with
      | true => exact failResult_resWF _ _ (by decide)
      | false => exact resWF_setQuery _ q h

/-- Helper: the sync `continue_conversation` only fails with non-empty
messages. -/
theorem syncContinueConversation_resWF (st : SyncSessionState)
    (env : SyncContinueEnv) (browserPath : Option (List Char))
    (useUserData : Bool) (q : List Char) (h : syncContinueEnvWF env) :
    resWF (syncContinueConversation st env browserPath useUserData q).1 := by
  obtain ⟨hsearch, hext, hnav, hnavExc⟩ := h
  have htail : ∀ st1 rs, syncContinueTail st1 env q = Except.ok rs →
      resWF rs.1 := by
    intro st1 rs hr
    unfold syncContinueTail at hr
    cases hwx : env.waitAiContent with
    | error e => rw [hwx] at hr; simp at hr
    | ok u =>
    rw [hwx] at hr
    cases hsx : env.waitStreaming with
    | error e => rw [hsx] at hr; simp at hr
    | ok bb =>
    rw [hsx] at hr
    cases htx : env.pageText with
    | error e => rw [htx] at hr; simp at hr
    | ok content =>
    rw [htx] at hr
    simp only [] at hr
    cases hcap : isCaptchaPage content with
    | true =>
      rw [hcap] at hr
      simp only [if_true] at hr
      simp only [Except.ok.injEq] at hr
      rw [← hr]
      exact failResult_resWF _ _ (by decide)
    | false =>
      rw [hcap] at hr
      simp only [Bool.false_eq_true, if_false] at hr
      simp only [Except.ok.injEq] at hr
      subst hr
      simp only []
      split_ifs <;> exact fun hf => hext hf
  unfold syncContinueConversation
  cases hact : syncHasActiveSession { st with lastActivityTime := env.now }
      env.hasNow with
  | mk active st1 =>
  simp only [hact]
  cases active with
  | false =>
    exact syncSearch_resWF st1 env.searchEnv browserPath useUserData q _ hsearch
  | true =>
    have honExn : resWF (syncNavigateToNewSearch st1 env.navEnvExc
        env.searchEnv browserPath useUserData q "zh-CN".toList).1 :=
      syncNavigateToNewSearch_resWF st1 env.navEnvExc env.searchEnv
        browserPath useUserData q _ hsearch hnavExc
    have hnavWF : resWF (syncNavigateToNewSearch st1 env.navEnv env.searchEnv
        browserPath useUserData q "zh-CN".toList).1 :=
      syncNavigateToNewSearch_resWF st1 env.navEnv env.searchEnv
        browserPath useUserData q _ hsearch hnav
    cases hfi : env.findInput with
    | error e => simp only [hfi]; exact honExn
    | ok found =>
    simp only [hfi]
    cases found with
    | true =>
      cases hin : env.interact with
      | error e => simp only [hin]; exact honExn
      | ok _ =>
        simp only [hin]
        cases htl : syncContinueTail st1 env q with
        | ok rs => simp only [htl]; exact htail st1 rs htl
        | error e => simp only [htl]; exact honExn
    | false =>
      cases hjs : env.hasJs with
      | error e => simp only [hjs]; exact honExn
      | ok hj =>
      simp only [hjs]
      cases hj with
      | false => exact hnavWF
      | true =>
        cases hsj : env.submitJs with
        | error e => simp only [hsj]; exact honExn
        | ok sj =>
        simp only [hsj]
        cases sj with
        | false => exact hnavWF
        | true =>
          cases htl : syncContinueTail st1 env q with
          | ok rs => simp only [htl]; exact htail st1 rs htl
          | error e => simp only [htl]; exact honExn

/-- Helper: the async `search` only fails with non-empty messages. -/
theorem asyncSearch_resWF (st : AsyncSessionState) (env : AsyncSearchEnv)
    (browserPath : Option (List Char)) (q language : List Char)
    (h : asyncSearchEnvWF env) :
    resWF (asyncSearch st env browserPath q language).1 := by
  obtain ⟨hsetup, hwait, hstream, hint, hext⟩ := h
  unfold asyncSearch
  cases browserPath with
  | none =>
    have hmsg : (if env.browserErr ≠ [] then env.browserErr
        else "未找到可用的浏览器（Chrome 或 Edge）".toList) ≠ [] := by
      by_cases hbe : env.browserErr ≠ []
      · rwa [if_pos hbe]
      · rw [if_neg hbe]; decide
    exact fun _ => hmsg
  | some bp =>
    cases env.ensure st with
    | mk ok st1 =>
    cases ok with
    | false => exact failResult_resWF _ _ (by decide)
    | true =>
    cases hsb : env.setupBlocking with
    | error e => exact failResult_resWF _ _ (hsetup e hsb)
    | ok _ =>
      cases hnav : (!env.navigate.1) with
      | true =>
        cases hi : env.intervention with
        | ok r => exact hint.2 r hi
        | error e => exact failResult_resWF _ _ (hint.1 e hi)
      | false =>
        cases hw : env.waitAiContent with
        | error e => exact failResult_resWF _ _ (hwait e hw)
        | ok _ =>
        cases hs : env.waitStreaming with
        | error e => exact failResult_resWF _ _ (hstream e hs)
        | ok _ =>
          simp only []
          cases hcap : (st1.tab &&
              match env.pageText with
              | Except.ok content => isCaptchaPage content
              | Except.error _ => false) with
          | true =>
            cases hi : env.intervention with
            | ok r => exact hint.2 r hi
            | error _ => exact resWF_setQuery _ q hext
          | false => exact resWF_setQuery _ q hext

/-- Helper: the async `continue_conversation` only fails with non-empty
messages. -/
theorem asyncContinueConversation_resWF (st : AsyncSessionState)
    (env : AsyncContinueEnv) (browserPath : Option (List Char))
    (q : List Char) (h : asyncContinueEnvWF env) :
    resWF (asyncContinueConversation st env browserPath q).1 := by
  obtain ⟨hsearch, hext⟩ := h
  unfold asyncContinueConversation
  cases asyncHasActiveSession st env.hasNow with
  | mk active st1 =>
  cases active with
  | false => exact asyncSearch_resWF st1 env.searchEnv browserPath q _ hsearch
  | true =>
    have hfb : resWF (asyncSearch st1 env.searchEnv browserPath q
        "zh-CN".toList).1 :=
      asyncSearch_resWF st1 env.searchEnv browserPath q _ hsearch
    cases env.findInput with
    | error e => exact hfb
    | ok found =>
    cases found with
    | false => exact hfb
    | true =>
      cases env.submit with
      | error e => exact hfb
      | ok sub =>
      cases sub with
      | false => exact hfb
      | true =>
        cases env.waitStreaming with
        | error e => exact hfb
        | ok _ =>
          simp only []
          split_ifs <;> exact fun hf => hext hf

/-- Helper: a successful oracle call is trivially message-well-formed. -/
theorem exnWF_ok {α : Type} (v : α) : exnWF (Except.ok v) :=
  fun _ h => nomatch h

/-- Helper: an exception with non-empty text is message-well-formed. -/
theorem exnWF_error {α : Type} (e0 : PyExn) (h : e0.msg ≠ []) :
    exnWF (Except.error e0 : Except PyExn α) :=
  fun _ he => by cases he; exact h

/-- Helper: a successful component result is message-well-formed. -/
theorem resWF_of_success (r : SearchResult) (h : r.success = true) : resWF r :=
  fun hf => nomatch h.symm.trans hf

/-- Helper: a successful oracle result with a well-formed payload. -/
theorem exnResWF_ok (r : SearchResult) (h : resWF r) :
    exnResWF (Except.ok r) :=
  ⟨exnWF_ok r, fun _ hr => by cases hr; exact h⟩

/-- C6 counterexample: an internal page-text read
(`self._page.evaluate`, searcher.py line 1310) that raises with empty
exception text (`str(e) == ""`) reaches the persistent-session catch-all
(line 1337), which makes the sync search return `success=false` with an
empty error message — the claimed non-empty error does not hold, though no
exception crosses the API. -/
theorem emptyExceptionMessage_counterexample :
    ((syncSearchPersistent ⟨true, true, true, true, true, 5, []⟩
        { now := 5, nowAfter := 6, ensure := fun s => (true, s),
          importPw := Except.ok (), goto := Except.ok (),
          waitAiContent := Except.ok (), waitStreaming := Except.ok true,
          pageText := Except.error ⟨[]⟩,
          extract := failResult [] [],
          intervention := Except.ok (failResult [] []),
          captchaHandler := Except.ok (failResult [] []),
          launch := Except.ok (), newPage := Except.ok (),
          newGoto := Except.ok (), newWaitAiContent := Except.ok (),
          newPageText := Except.ok [],
          newExtract := failResult [] [],
          newIntervention := Except.ok (failResult [] []),
          newCaptchaHandler := Except.ok (failResult [] []) }
        "my query".toList).1.success = false) ∧
    ((syncSearchPersistent ⟨true, true, true, true, true, 5, []⟩
        { now := 5, nowAfter := 6, ensure := fun s => (true, s),
          importPw := Except.ok (), goto := Except.ok (),
          waitAiContent := Except.ok (), waitStreaming := Except.ok true,
          pageText := Except.error ⟨[]⟩,
          extract := failResult [] [],
          intervention := Except.ok (failResult [] []),
          captchaHandler := Except.ok (failResult [] []),
          launch := Except.ok (), newPage := Except.ok (),
          newGoto := Except.ok (), newWaitAiContent := Except.ok (),
          newPageText := Except.ok [],
          newExtract := failResult [] [],
          newIntervention := Except.ok (failResult [] []),
          newCaptchaHandler := Except.ok (failResult [] []) }
        "my query".toList).1.error = []) := by
  constructor
  · rfl
  · rfl

/-- C6 (amended): no exception crosses the public API — every internal
raise is caught at the controller boundary and converted into
`SearchResult(success=false, error=str(e) or a fixed description)` (the
embedded `search` and `continue_conversation` are total functions of the
oracle environment); whenever every internal exception and component
failure result carries a non-empty message, every failure result of the
public sync and async `search` and `continue_conversation` carries a
non-empty error message.  An internal exception whose text is empty yields
an empty error field, so the unconditional non-empty claim fails. -/
theorem no_exception_crosses_public_api
    (st : SyncSessionState) (ast : AsyncSessionState)
    (senv : SyncSearchEnv) (cenv : SyncContinueEnv) (aenv : AsyncSearchEnv)
    (acenv : AsyncContinueEnv) (browserPath : Option (List Char))
    (useUserData : Bool) (q language : List Char)
    (hs : syncSearchEnvWF senv) (hc : syncContinueEnvWF cenv)
    (ha : asyncSearchEnvWF aenv) (hac : asyncContinueEnvWF acenv) :
    ((syncSearch st senv browserPath useUserData q language).1.success = false →
      (syncSearch st senv browserPath useUserData q language).1.error ≠ []) ∧
    ((syncContinueConversation st cenv browserPath useUserData q).1.success = false →
      (syncContinueConversation st cenv browserPath useUserData q).1.error ≠ []) ∧
    ((asyncSearch ast aenv browserPath q language).1.success = false →
      (asyncSearch ast aenv browserPath q language).1.error ≠ []) ∧
    ((asyncContinueConversation ast acenv browserPath q).1.success = false →
      (asyncContinueConversation ast acenv browserPath q).1.error ≠ []) :=
  ⟨syncSearch_resWF st senv browserPath useUserData q language hs,
   syncContinueConversation_resWF st cenv browserPath useUserData q hc,
   asyncSearch_resWF ast aenv browserPath q language ha,
   asyncContinueConversation_resWF ast acenv browserPath q hac⟩

/-- C6 witness: the boundary theorem applied at concrete states and
environments (a navigation failure with the exception text `nav fail` on
the sync side, clean runs elsewhere), with every well-formedness hypothesis
discharged. -/
theorem no_exception_crosses_public_api_witness :
    ((syncSearch ⟨true, true, true, true, true, 1, []⟩
        { now := 1, nowAfter := 2, ensure := fun s => (true, s),
          importPw := Except.ok (), goto := Except.error ⟨"nav fail".toList⟩,
          waitAiContent := Except.ok (), waitStreaming := Except.ok true,
          pageText := Except.ok [],
          extract := ⟨true, [], "ans".toList, [], []⟩,
          intervention := Except.ok ⟨true, [], "ans".toList, [], []⟩,
          captchaHandler := Except.ok ⟨true, [], "ans".toList, [], []⟩,
          launch := Except.ok (), newPage := Except.ok (),
          newGoto := Except.ok (), newWaitAiContent := Except.ok (),
          newPageText := Except.ok [],
          newExtract := ⟨true, [], "ans".toList, [], []⟩,
          newIntervention := Except.ok ⟨true, [], "ans".toList, [], []⟩,
          newCaptchaHandler := Except.ok ⟨true, [], "ans".toList, [], []⟩ }
        (some "chrome".toList) true "q1".toList
        "zh-CN".toList).1.success = false →
      (syncSearch ⟨true, true, true, true, true, 1, []⟩
        { now := 1, nowAfter := 2, ensure := fun s => (true, s),
          importPw := Except.ok (), goto := Except.error ⟨"nav fail".toList⟩,
          waitAiContent := Except.ok (), waitStreaming := Except.ok true,
          pageText := Except.ok [],
          extract := ⟨true, [], "ans".toList, [], []⟩,
          intervention := Except.ok ⟨true, [], "ans".toList, [], []⟩,
          captchaHandler := Except.ok ⟨true, [], "ans".toList, [], []⟩,
          launch := Except.ok (), newPage := Except.ok (),
          newGoto := Except.ok (), newWaitAiContent := Except.ok (),
          newPageText := Except.ok [],
          newExtract := ⟨true, [], "ans".toList, [], []⟩,
          newIntervention := Except.ok ⟨true, [], "ans".toList, [], []⟩,
          newCaptchaHandler := Except.ok ⟨true, [], "ans".toList, [], []⟩ }
        (some "chrome".toList) true "q1".toList
        "zh-CN".toList).1.error ≠ []) ∧
    ((asyncSearch ⟨true, true, true, 1, []⟩
        { browserErr := [], ensure := fun s => (true, s),
          setupBlocking := Except.error ⟨"blocked".toList⟩,
          navigate := (true, none), waitAiContent := Except.ok true,
          waitStreaming := Except.ok true, pageText := Except.ok [],
          intervention := Except.ok ⟨true, [], "ans".toList, [], []⟩,
          extract := ⟨true, [], "ans".toList, [], []⟩,
          nowAfter := 9 }
        (some "chrome".toList) "q1".toList "zh-CN".toList).1.success = false →
      (asyncSearch ⟨true, true, true, 1, []⟩
        { browserErr := [], ensure := fun s => (true, s),
          setupBlocking := Except.error ⟨"blocked".toList⟩,
          navigate := (true, none), waitAiContent := Except.ok true,
          waitStreaming := Except.ok true, pageText := Except.ok [],
          intervention := Except.ok ⟨true, [], "ans".toList, [], []⟩,
          extract := ⟨true, [], "ans".toList, [], []⟩,
          nowAfter := 9 }
        (some "chrome".toList) "q1".toList "zh-CN".toList).1.error ≠ []) := by
  have hres : resWF (⟨true, [], "ans".toList, [], []⟩ : SearchResult) :=
    resWF_of_success _ rfl
  have hs : syncSearchEnvWF
      { now := 1, nowAfter := 2, ensure := fun s => (true, s),
        importPw := Except.ok (), goto := Except.error ⟨"nav fail".toList⟩,
        waitAiContent := Except.ok (), waitStreaming := Except.ok true,
        pageText := Except.ok [],
        extract := ⟨true, [], "ans".toList, [], []⟩,
        intervention := Except.ok ⟨true, [], "ans".toList, [], []⟩,
        captchaHandler := Except.ok ⟨true, [], "ans".toList, [], []⟩,
        launch := Except.ok (), newPage := Except.ok (),
        newGoto := Except.ok (), newWaitAiContent := Except.ok (),
        newPageText := Except.ok [],
        newExtract := ⟨true, [], "ans".toList, [], []⟩,
        newIntervention := Except.ok ⟨true, [], "ans".toList, [], []⟩,
        newCaptchaHandler := Except.ok ⟨true, [], "ans".toList, [], []⟩ } :=
    ⟨exnWF_ok _, exnWF_error _ (by decide), exnWF_ok _, exnWF_ok _, exnWF_ok _,
     hres, exnResWF_ok _ hres, exnResWF_ok _ hres, exnWF_ok _,
     exnWF_ok _, exnWF_ok _, exnWF_ok _, exnWF_ok _, hres,
     exnResWF_ok _ hres, exnResWF_ok _ hres⟩
  have ha : asyncSearchEnvWF
      { browserErr := [], ensure := fun s => (true, s),
        setupBlocking := Except.error ⟨"blocked".toList⟩,
        navigate := (true, none), waitAiContent := Except.ok true,
        waitStreaming := Except.ok true, pageText := Except.ok [],
        intervention := Except.ok ⟨true, [], "ans".toList, [], []⟩,
        extract := ⟨true, [], "ans".toList, [], []⟩,
        nowAfter := 9 } :=
    ⟨exnWF_error _ (by decide), exnWF_ok _, exnWF_ok _, exnResWF_ok _ hres,
     hres⟩
  have h := no_exception_crosses_public_api
    ⟨true, true, true, true, true, 1, []⟩ ⟨true, true, true, 1, []⟩
    _ { now := 1, hasNow := 1, nowEnd := 2,
        searchEnv := _, findInput := Except.ok true,
        interact := Except.ok (), hasJs := Except.ok true,
        submitJs := Except.ok true, waitAiContent := Except.ok (),
        waitStreaming := Except.ok true, pageText := Except.ok [],
        extract := ⟨true, [], "ans".toList, [], []⟩,
        navEnv := { goto := Except.ok (), waitAiContent := Except.ok (),
                    waitStreaming := Except.ok true, pageText := Except.ok [],
                    extract := ⟨true, [], "ans".toList, [], []⟩,
                    now := 3 },
        navEnvExc := { goto := Except.ok (), waitAiContent := Except.ok (),
                       waitStreaming := Except.ok true,
                       pageText := Except.ok [],
                       extract := ⟨true, [], "ans".toList, [], []⟩,
                       now := 3 } }
    _ { hasNow := 1, nowEnd := 2, searchEnv := _,
        findInput := Except.ok true, submit := Except.ok true,
        waitStreaming := Except.ok true,
        extract := ⟨true, [], "ans".toList, [], []⟩,
        extractFull := ⟨true, [], "ans".toList, [], []⟩ }
    (some "chrome".toList) true "q1".toList "zh-CN".toList
    hs ⟨hs, hres, hres, hres⟩
    ha ⟨ha, hres⟩
  exact ⟨h.1, h.2.2.1⟩

/-- Helper: stripping yields a contiguous substring. -/
theorem pyStrip_contig (l : List Char) : pyStrip l <:+: l :=
  (List.rdropWhile_prefix _ _).isInfix.trans (List.dropWhile_suffix _).isInfix

/-- Helper: strip-after-drop yields a contiguous substring. -/
theorem pyStrip_drop_contig (l : List Char) (k : Nat) :
    pyStrip (l.drop k) <:+: l :=
  (pyStrip_contig _).trans (List.drop_suffix k l).isInfix

/-- Helper: `_remove_user_query_from_content` returns a contiguous
(stripped) substring of its input on every strategy. -/
theorem removeUserQueryFromContent_contig (content query : List Char) :
    removeUserQueryFromContent content query <:+: content := by
  unfold removeUserQueryFromContent
  simp only []
  repeat' split
  all_goals first
    | exact List.infix_rfl
    | exact pyStrip_drop_contig _ _

/-- Helper: `_remove_previous_content` returns the input, the empty string
or a contiguous stripped substring on every strategy. -/
theorem removePreviousContent_contig (fullContent previousContent : List Char) :
    removePreviousContent fullContent previousContent <:+: fullContent := by
  unfold removePreviousContent
  simp only []
  repeat' split
  all_goals first
    | exact List.infix_rfl
    | exact List.nil_infix
    | exact pyStrip_drop_contig _ _

/-- C10 (confirmed): the diff engine never fabricates text — the result of
`_extract_incremental_content` is always a contiguous substring of
`full_content` (obtained by slicing and stripping; the empty string
included), and when both removal phases find no match the full content is
returned unchanged. -/
theorem extractIncrementalContent_never_fabricates :
    (∀ fullContent previousContent userQuery : List Char,
      extractIncrementalContent fullContent previousContent userQuery <:+:
        fullContent) ∧
    (∀ fullContent previousContent userQuery : List Char,
      removePreviousContent fullContent previousContent = fullContent →
      removeUserQueryFromContent fullContent userQuery = fullContent →
      extractIncrementalContent fullContent previousContent userQuery =
        fullContent) := by
  constructor
  · intro fullContent previousContent userQuery
    unfold extractIncrementalContent
    split
    · exact List.nil_infix
    · split
      · exact List.infix_rfl
      · simp only []
        split
        · exact (removeUserQueryFromContent_contig _ _).trans
            (removePreviousContent_contig _ _)
        · exact removePreviousContent_contig _ _
  · intro fullContent previousContent userQuery h1 h2
    unfold extractIncrementalContent
    split
    · rename_i hnil
      rw [hnil]
    · split
      · rfl
      · rw [h1]
        simp only []
        split
        · exact h2
        · rfl

/-- C10 witness: the no-match case at a concrete input — neither the
previous answer `x` nor the query `zz` is found in `abc`, and the full
content comes back unchanged. -/
theorem extractIncrementalContent_never_fabricates_witness :
    removePreviousContent "abc".toList "x".toList = "abc".toList ∧
    removeUserQueryFromContent "abc".toList "zz".toList = "abc".toList ∧
    extractIncrementalContent "abc".toList "x".toList "zz".toList =
      "abc".toList :=
  ⟨by decide, by decide,
   extractIncrementalContent_never_fabricates.2 "abc".toList "x".toList
     "zz".toList (by decide) (by decide)⟩

/-- Helper: a decomposition with a non-empty left context is an occurrence
strictly after position 0. -/
theorem occurrence_shift (f q A B : List Char) (hA : A ≠ [])
    (hf : A ++ q ++ B = f) : q <:+: f.drop 1 := by
  obtain ⟨x, A2, rfl⟩ := List.exists_cons_of_ne_nil hA
  refine ⟨A2, B, ?_⟩
  rw [← hf]
  simp

/-- Helper: the head of a stripped string is never whitespace. -/
theorem pyStrip_head_not_ws (x : List Char) (c : Char) (rest : List Char)
    (hx : pyStrip x = c :: rest) : pyWs c = false := by
  obtain ⟨t, ht⟩ := List.rdropWhile_prefix pyWs (x.dropWhile pyWs)
  have heq : x.dropWhile pyWs = c :: (rest ++ t) := by
    rw [← ht]
    show pyStrip x ++ t = c :: (rest ++ t)
    rw [hx]
    simp
  have h5 := List.head?_dropWhile_not pyWs x
  rw [heq] at h5
  simpa using h5

/-- Helper: stripping is idempotent. -/
theorem pyStrip_idem (l : List Char) : pyStrip (pyStrip l) = pyStrip l := by
  have h1 : (pyStrip l).dropWhile pyWs = pyStrip l := by
    cases hx : pyStrip l with
    | nil => rfl
    | cons c rest =>
      have hws := pyStrip_head_not_ws l c rest hx
      simp [List.dropWhile_cons, hws]
  show ((pyStrip l).dropWhile pyWs).rdropWhile pyWs = pyStrip l
  rw [h1]
  show (List.rdropWhile pyWs ((l.dropWhile pyWs).rdropWhile pyWs)) = pyStrip l
  rw [List.rdropWhile_idempotent]
  rfl

/-- Helper: an all-whitespace string strips to nothing and conversely. -/
theorem pyStrip_eq_nil_iff (l : List Char) :
    pyStrip l = [] ↔ ∀ x ∈ l, pyWs x = true := by
  unfold pyStrip
  rw [List.rdropWhile_eq_nil_iff]
  constructor
  · intro h x hx
    rw [← List.takeWhile_append_dropWhile pyWs l] at hx
    rcases List.mem_append.mp hx with hx | hx
    · exact List.mem_takeWhile_imp hx
    · exact h x hx
  · intro h x hx
    exact h x ((List.dropWhile_suffix pyWs).subset hx)

/-- Helper: a prefix of `q ++ new` found inside a stripped remainder after a
positive drop witnesses an occurrence of `q` strictly after position 0 of
`q ++ new`. -/
theorem strip_drop_no_prefix (q new : List Char) (k : Nat) (hq : q ≠ [])
    (hk : 1 ≤ k) (H2 : ¬q <:+: (q ++ new).drop 1) :
    ¬q <+: pyStrip ((pyStrip (q ++ new)).drop k) := by
  intro hpre
  apply H2
  have h2 : q <:+: (pyStrip (q ++ new)).drop k :=
    hpre.isInfix.trans (pyStrip_contig _)
  obtain ⟨a1, b1, hdecomp⟩ := h2
  obtain ⟨w1, w2, hf⟩ := pyStrip_contig (q ++ new)
  have hdk_ne : (pyStrip (q ++ new)).drop k ≠ [] := by
    intro h0
    rw [h0] at hdecomp
    have := List.append_eq_nil.mp hdecomp
    have := List.append_eq_nil.mp this.1
    exact hq this.2
  have hc_ne : pyStrip (q ++ new) ≠ [] := by
    intro h0
    rw [h0] at hdk_ne
    simp at hdk_ne
  have htake_ne : (pyStrip (q ++ new)).take k ≠ [] := by
    rw [Ne, List.take_eq_nil_iff]
    push_neg
    exact ⟨by omega, hc_ne⟩
  have hA : w1 ++ (pyStrip (q ++ new)).take k ++ a1 ≠ [] := by
    intro h0
    have := List.append_eq_nil.mp h0
    have := List.append_eq_nil.mp this.1
    exact htake_ne this.2
  have hC : (pyStrip (q ++ new)).take k ++ (a1 ++ q ++ b1) =
      pyStrip (q ++ new) := by
    rw [hdecomp]
    exact List.take_append_drop k _
  have hfinal : (w1 ++ (pyStrip (q ++ new)).take k ++ a1) ++ q ++ (b1 ++ w2) =
      q ++ new := by
    calc (w1 ++ (pyStrip (q ++ new)).take k ++ a1) ++ q ++ (b1 ++ w2)
        = w1 ++ ((pyStrip (q ++ new)).take k ++ (a1 ++ q ++ b1)) ++ w2 := by
          simp [List.append_assoc]
      _ = w1 ++ pyStrip (q ++ new) ++ w2 := by rw [hC]
      _ = q ++ new := hf
  exact occurrence_shift (q ++ new) q _ _ hA hfinal

/-- Helper: `findSub` for an empty needle is position 0. -/
theorem findSub_nil_needle (l : List Char) : findSub l [] = some 0 := by
  unfold findSub
  rw [if_pos]
  cases l <;> rfl

/-- Helper: `findSub` finds a needle that prefixes the haystack at
position 0. -/
theorem findSub_of_prefix (l p : List Char) (h : p <+: l) :
    findSub l p = some 0 := by
  unfold findSub
  rw [if_pos (List.isPrefixOf_iff_prefix.mpr h)]

/-- Helper: the inner strategy-3 scan returns a positive match end. -/
theorem strategy3Find_pos (content queryNormalized qNorm : List Char)
    (m : Nat) (h : strategy3Find content queryNormalized qNorm = some m) :
    1 ≤ m := by
  unfold strategy3Find at h
  rcases Option.bind_eq_some.mp h with ⟨i, _, hm⟩
  unfold strategy3MatchEnd at hm
  rcases Option.map_eq_some'.mp hm with ⟨j, _, hj⟩
  omega

/-- Helper: when the echoed query occurs in `q ++ new` only at position 0,
`_remove_user_query_from_content` on the stripped remainder never returns a
string that still starts with the query. -/
theorem removeUserQueryFromContent_no_query_prefix (q new : List Char)
    (hq : q ≠ []) (H2 : ¬q <:+: (q ++ new).drop 1) :
    ¬q <+: removeUserQueryFromContent (pyStrip (q ++ new)) q := by
  unfold removeUserQueryFromContent
  by_cases h0 : pyStrip (q ++ new) = [] ∨ q = []
  · rw [if_pos h0]
    rcases h0 with h0 | h0
    · rw [h0]
      intro hpre
      exact hq (List.prefix_nil.mp hpre)
    · exact absurd h0 hq
  · rw [if_neg h0]
    by_cases hpre : q.isPrefixOf (pyStrip (q ++ new)) = true
    · rw [if_pos hpre]
      exact strip_drop_no_prefix q new q.length hq
        (List.length_pos.mpr hq) H2
    · rw [if_neg hpre]
      simp only []
      have hnotpre : ¬q <+: pyStrip (q ++ new) := fun hc =>
        hpre (List.isPrefixOf_iff_prefix.mpr hc)
      have hfallback : ¬q <+:
          (if 5 ≤ (normalizeQ (pyStrip q)).length then
            match strategy3Find (pyStrip (q ++ new)) (pyStrip q)
                (normalizeQ (pyStrip q)) with
            | some matchEnd => pyStrip ((pyStrip (q ++ new)).drop matchEnd)
            | none => pyStrip (q ++ new)
          else pyStrip (q ++ new)) := by
        split
        · split
          · rename_i m hm
            exact strip_drop_no_prefix q new m hq
              (strategy3Find_pos _ _ _ m hm) H2
          · exact hnotpre
        · exact hnotpre
      cases hfind : findSub ((pyStrip (q ++ new)).take
          (min ((pyStrip q).length + 50) (pyStrip (q ++ new)).length))
          (pyStrip q) with
      | none => exact hfallback
      | some pos =>
        simp only []
        by_cases hp20 : pos < 20
        · rw [if_pos hp20]
          by_cases hqn : pyStrip q = []
          · have hpos : pos = 0 := by
              rw [hqn, findSub_nil_needle] at hfind
              exact (Option.some_inj.mp hfind).symm
            rw [hqn, hpos]
            simp only [List.length_nil, Nat.add_zero, List.drop_zero]
            rw [pyStrip_idem]
            intro hcon
            obtain ⟨c, q2, hq2⟩ := List.exists_cons_of_ne_nil hq
            obtain ⟨t, ht⟩ := hcon
            have hcw : pyWs c = true :=
              (pyStrip_eq_nil_iff q).mp hqn c (by rw [hq2]; simp)
            have hhd : pyStrip (q ++ new) = c :: (q2 ++ t) := by
              rw [← ht, hq2]
              simp
            have := pyStrip_head_not_ws (q ++ new) c (q2 ++ t) hhd
            rw [hcw] at this
            exact absurd this (by simp)
          · exact strip_drop_no_prefix q new _ hq
              (by have := List.length_pos.mpr hqn; omega) H2
        · rw [if_neg hp20]
          exact hfallback

/-- Helper: on `previous ++ rest` the previous-content removal always
succeeds through the exact-match strategy and returns the stripped rest. -/
theorem removePreviousContent_append (previous rest : List Char)
    (hp : previous ≠ []) :
    removePreviousContent (previous ++ rest) previous =
      if pyStrip rest ≠ [] then pyStrip rest else [] := by
  unfold removePreviousContent
  rw [if_neg hp]
  have hfind : findSub (previous ++ rest) previous = some 0 :=
    findSub_of_prefix _ _ (List.prefix_append _ _)
  have hin : pyIn (previous ++ rest) previous = true := by
    unfold pyIn
    rw [hfind]
    rfl
  rw [if_pos hin]
  simp only [hfind, Option.getD_some, Nat.zero_add]
  rw [List.drop_left]

/-- C2 counterexample: for the triple `previous="a"`, `query="b"`,
`new="ab"`, the extraction of `previous + query + new = "abab"` yields
`"ab"`, which contains `previous` as a substring (and the incremental
result can likewise start with the query, e.g. for `new="ba"`). -/
theorem extractIncremental_counterexample :
    extractIncrementalContent "abab".toList "a".toList "b".toList =
      "ab".toList ∧
    "a".toList <:+: "ab".toList := by
  constructor
  · rfl
  · decide

/-- C2 (amended): the incremental-extraction subtraction property holds
for every triple `(previous, query, new)` in which the removed occurrences
are unambiguous: if `previous` and `query` are non-empty, `previous` does
not reoccur inside `query ++ new`, and `query` occurs in `query ++ new`
only at position 0, then the result of `_extract_incremental_content` on
`previous ++ query ++ new` never contains `previous` as a substring and
never starts with `query` (without those conditions the removed text can
reappear, as the counterexample shows). -/
theorem extractIncremental_subtraction (previous query new : List Char)
    (hp : previous ≠ []) (hq : query ≠ [])
    (H1 : ¬previous <:+: (query ++ new))
    (H2 : ¬query <:+: (query ++ new).drop 1) :
    ¬previous <:+:
        extractIncrementalContent (previous ++ query ++ new) previous query ∧
    ¬query <+:
        extractIncrementalContent (previous ++ query ++ new) previous query := by
  rw [List.append_assoc]
  unfold extractIncrementalContent
  rw [if_neg (by simp [hp] : ¬previous ++ (query ++ new) = [])]
  rw [if_neg hp]
  simp only []
  rw [removePreviousContent_append previous (query ++ new) hp]
  by_cases hstrip : pyStrip (query ++ new) = []
  · rw [if_neg (not_not.mpr hstrip)]
    rw [if_neg (by simp)]
    constructor
    · intro hcon
      exact hp (List.infix_nil.mp hcon)
    · intro hcon
      exact hq (List.prefix_nil.mp hcon)
  · rw [if_pos hstrip]
    rw [if_pos ⟨hstrip, hq⟩]
    constructor
    · intro hcon
      exact H1 ((hcon.trans (removeUserQueryFromContent_contig _ _)).trans
        (pyStrip_contig _))
    · exact removeUserQueryFromContent_no_query_prefix query new hq H2

/-- C2 witness: the amended subtraction property at the concrete triple
`previous="prev answer."`, `query="What else?"`, `new="More details."`. -/
theorem extractIncremental_subtraction_witness :
    ¬"prev answer.".toList <:+:
        extractIncrementalContent
          ("prev answer.".toList ++ "What else?".toList ++
            "More details.".toList)
          "prev answer.".toList "What else?".toList ∧
    ¬"What else?".toList <+:
        extractIncrementalContent
          ("prev answer.".toList ++ "What else?".toList ++
            "More details.".toList)
          "prev answer.".toList "What else?".toList :=
  extractIncremental_subtraction "prev answer.".toList "What else?".toList
    "More details.".toList (by decide) (by decide) (by decide) (by decide)

/-- Helper: a character code is below the Unicode bound. -/
theorem char_toNat_lt (c : Char) : c.toNat < 0x110000 := by
  show c.val.toNat < 1114112
  rcases c.valid with h | ⟨_, h⟩
  · have h2 : c.val.toNat < (55296 : UInt32).toNat := h
    have h3 : (55296 : UInt32).toNat = 55296 := rfl
    omega
  · have h2 : c.val.toNat < (1114112 : UInt32).toNat := h
    have h3 : (1114112 : UInt32).toNat = 1114112 := rfl
    omega

/-- Helper: `Char.ofNat` below the surrogate range keeps its code. -/
theorem char_toNat_ofNat (b : Nat) (h : b < 0xd800) :
    (Char.ofNat b).toNat = b := by
  unfold Char.ofNat
  rw [dif_pos (Or.inl h : Char.isValidCharNat b)]
  simp [Char.ofNatAux, Char.toNat, UInt32.ofNat', UInt32.toNat,
    BitVec.toNat_ofNatLt]

set_option maxRecDepth 4000 in
/-- Helper: UTF-8 decoding inverts the encoding of one character in front
of any byte tail. -/
theorem utf8Decode_encode_cons (c : Char) (bs : List Nat) :
    utf8Decode (utf8EncodeCharNat c.toNat ++ bs) = c :: utf8Decode bs := by
  have hlt := char_toNat_lt c
  have hofNat : Char.ofNat c.toNat = c := Char.ofNat_toNat c
  unfold utf8EncodeCharNat
  by_cases h1 : c.toNat < 0x80
  · rw [if_pos h1]
    simp only [List.cons_append, List.nil_append]
    rw [utf8Decode]
    rw [if_pos h1, hofNat]
  · rw [if_neg h1]
    by_cases h2 : c.toNat < 0x800
    · rw [if_pos h2]
      simp only [List.cons_append, List.nil_append]
      rw [utf8Decode]
      rw [if_neg (by omega), if_pos (by omega), if_neg (by simp)]
      rw [show List.drop 1 ((0x80 + c.toNat % 64) :: bs) = bs from rfl,
        show List.getD ((0x80 + c.toNat % 64) :: bs) 0 0 =
          0x80 + c.toNat % 64 from rfl]
      congr 1
      rw [show 0xC0 + c.toNat / 64 - 0xC0 = c.toNat / 64 by omega,
        show 0x80 + c.toNat % 64 - 0x80 = c.toNat % 64 by omega]
      rw [show c.toNat / 64 * 64 + c.toNat % 64 = c.toNat by omega]
      exact hofNat
    · rw [if_neg h2]
      by_cases h3 : c.toNat < 0x10000
      · rw [if_pos h3]
        simp only [List.cons_append, List.nil_append]
        rw [utf8Decode]
        rw [if_neg (by omega), if_neg (by omega), if_pos (by omega),
          if_neg (by simp)]
        rw [show List.drop 2 ((0x80 + c.toNat / 64 % 64) ::
            (0x80 + c.toNat % 64) :: bs) = bs from rfl,
          show List.getD ((0x80 + c.toNat / 64 % 64) ::
            (0x80 + c.toNat % 64) :: bs) 0 0 =
            0x80 + c.toNat / 64 % 64 from rfl,
          show List.getD ((0x80 + c.toNat / 64 % 64) ::
            (0x80 + c.toNat % 64) :: bs) 1 0 =
            0x80 + c.toNat % 64 from rfl]
        congr 1
        rw [show 0xE0 + c.toNat / 4096 - 0xE0 = c.toNat / 4096 by omega,
          show 0x80 + c.toNat / 64 % 64 - 0x80 = c.toNat / 64 % 64 by omega,
          show 0x80 + c.toNat % 64 - 0x80 = c.toNat % 64 by omega]
        rw [show c.toNat / 4096 * 4096 + c.toNat / 64 % 64 * 64 +
          c.toNat % 64 = c.toNat by omega]
        exact hofNat
      · rw [if_neg h3]
        simp only [List.cons_append, List.nil_append]
        rw [utf8Decode]
        rw [if_neg (by omega), if_neg (by omega), if_neg (by omega),
          if_neg (by simp)]
        rw [show List.drop 3 ((0x80 + c.toNat / 4096 % 64) ::
            (0x80 + c.toNat / 64 % 64) :: (0x80 + c.toNat % 64) :: bs) =
            bs from rfl,
          show List.getD ((0x80 + c.toNat / 4096 % 64) ::
            (0x80 + c.toNat / 64 % 64) :: (0x80 + c.toNat % 64) :: bs) 0 0 =
            0x80 + c.toNat / 4096 % 64 from rfl,
          show List.getD ((0x80 + c.toNat / 4096 % 64) ::
            (0x80 + c.toNat / 64 % 64) :: (0x80 + c.toNat % 64) :: bs) 1 0 =
            0x80 + c.toNat / 64 % 64 from rfl,
          show List.getD ((0x80 + c.toNat / 4096 % 64) ::
            (0x80 + c.toNat / 64 % 64) :: (0x80 + c.toNat % 64) :: bs) 2 0 =
            0x80 + c.toNat % 64 from rfl]
        congr 1
        rw [show 0xF0 + c.toNat / 262144 - 0xF0 = c.toNat / 262144 by omega,
          show 0x80 + c.toNat / 4096 % 64 - 0x80 = c.toNat / 4096 % 64 by omega,
          show 0x80 + c.toNat / 64 % 64 - 0x80 = c.toNat / 64 % 64 by omega,
          show 0x80 + c.toNat % 64 - 0x80 = c.toNat % 64 by omega]
        rw [show c.toNat / 262144 * 262144 + c.toNat / 4096 % 64 * 4096 +
          c.toNat / 64 % 64 * 64 + c.toNat % 64 = c.toNat by omega]
        exact hofNat

/-- Helper: UTF-8 decoding inverts the byte encoding of a string. -/
theorem utf8Decode_utf8Bytes (s : List Char) :
    utf8Decode (utf8Bytes s) = s := by
  induction s with
  | nil =>
    show utf8Decode [] = []
    rw [utf8Decode]
  | cons c t ih =>
    show utf8Decode (utf8EncodeCharNat c.toNat ++ utf8Bytes t) = c :: t
    rw [utf8Decode_encode_cons, ih]

/-- Helper: every UTF-8 byte is below 256. -/
theorem utf8Bytes_lt (s : List Char) : ∀ b ∈ utf8Bytes s, b < 256 := by
  intro b hb
  obtain ⟨c, _, hc⟩ := List.mem_flatMap.mp hb
  have hlt := char_toNat_lt c
  have hd1 : 64 * (c.toNat / 64) + c.toNat % 64 = c.toNat := Nat.div_add_mod _ 64
  have hm1 : c.toNat % 64 < 64 := Nat.mod_lt _ (by omega)
  have hm2 : c.toNat / 64 % 64 < 64 := Nat.mod_lt _ (by omega)
  have hm3 : c.toNat / 4096 % 64 < 64 := Nat.mod_lt _ (by omega)
  have hq2 : c.toNat / 64 ≤ c.toNat := Nat.div_le_self _ _
  have hq3 : c.toNat / 4096 * 4096 ≤ c.toNat := Nat.div_mul_le_self _ _
  have hq4 : c.toNat / 262144 * 262144 ≤ c.toNat := Nat.div_mul_le_self _ _
  unfold utf8EncodeCharNat at hc
  split at hc
  · simp at hc
    omega
  · split at hc
    · simp at hc
      rcases hc with hc | hc <;> omega
    · split at hc
      · simp at hc
        rcases hc with hc | hc | hc <;> omega
      · simp at hc
        rcases hc with hc | hc | hc | hc <;> omega

/-- Helper: the hex digit characters decode back to their value. -/
theorem hexVal_hexDigit (n : Nat) (h : n < 16) : hexVal (hexDigit n) = n := by
  interval_cases n <;> decide

/-- Helper: the code of a hex digit character lies in the digit or
uppercase-letter range. -/
theorem hexDigit_toNat_mem (n : Nat) (h : n < 16) :
    48 ≤ (hexDigit n).toNat ∧ (hexDigit n).toNat ≤ 57 ∨
      65 ≤ (hexDigit n).toNat ∧ (hexDigit n).toNat ≤ 70 := by
  unfold hexDigit
  split
  · rw [char_toNat_ofNat _ (by omega)]
    omega
  · rw [char_toNat_ofNat _ (by omega)]
    omega

/-- Helper: decoding inverts the percent-encoding of a single byte placed in
front of any character tail. -/
theorem unquoteBytes_quotePlusByte (b : Nat) (hb : b < 256) (rest : List Char) :
    unquoteBytes (quotePlusByte b ++ rest) = b :: unquoteBytes rest := by
  unfold quotePlusByte
  by_cases hs : quoteSafeByte b
  · rw [if_pos hs]
    simp only [List.cons_append, List.nil_append]
    have hprops : ((((((48 ≤ b ∧ b ≤ 57) ∨ (65 ≤ b ∧ b ≤ 90)) ∨
        (97 ≤ b ∧ b ≤ 122)) ∨ b = 45) ∨ b = 46) ∨ b = 95) ∨ b = 126 := by
      simpa [quoteSafeByte, Bool.or_eq_true, Bool.and_eq_true,
        decide_eq_true_eq] using hs
    have htoNat : (Char.ofNat b).toNat = b := char_toNat_ofNat b (by omega)
    have hne1 : Char.ofNat b ≠ '+' := by
      intro he
      have h2 := congrArg Char.toNat he
      rw [htoNat] at h2
      have h3 : Char.toNat '+' = 43 := rfl
      omega
    have hne2 : Char.ofNat b ≠ '%' := by
      intro he
      have h2 := congrArg Char.toNat he
      rw [htoNat] at h2
      have h3 : Char.toNat '%' = 37 := rfl
      omega
    rw [unquoteBytes, if_neg hne1, if_neg hne2, htoNat,
      show utf8EncodeCharNat b = [b] from by
        unfold utf8EncodeCharNat
        rw [if_pos (by omega : b < 0x80)]]
    simp
  · by_cases h32 : b = 32
    · subst h32
      rw [if_neg hs, if_pos rfl]
      simp only [List.cons_append, List.nil_append]
      rw [unquoteBytes, if_pos rfl]
    · rw [if_neg hs, if_neg h32]
      simp only [List.cons_append, List.nil_append]
      rw [unquoteBytes, if_neg (by decide), if_pos rfl,
        if_neg (by simp : ¬(hexDigit (b / 16) :: hexDigit (b % 16) ::
          rest).length < 2)]
      rw [show (hexDigit (b / 16) :: hexDigit (b % 16) :: rest).getD 0 ' ' =
          hexDigit (b / 16) from rfl,
        show (hexDigit (b / 16) :: hexDigit (b % 16) :: rest).getD 1 ' ' =
          hexDigit (b % 16) from rfl,
        show (hexDigit (b / 16) :: hexDigit (b % 16) :: rest).drop 2 =
          rest from rfl]
      rw [hexVal_hexDigit _ (by omega), hexVal_hexDigit _ (by omega)]
      congr 1
      omega

/-- Helper: decoding inverts quote-plus encoding on a byte list. -/
theorem unquoteBytes_flatMap (bs : List Nat) (h : ∀ b ∈ bs, b < 256) :
    unquoteBytes (bs.flatMap quotePlusByte) = bs := by
  induction bs with
  | nil =>
    rw [List.flatMap_nil, unquoteBytes]
  | cons b t ih =>
    rw [List.flatMap_cons,
      unquoteBytes_quotePlusByte b (h b (by simp)) _,
      ih (fun x hx => h x (by simp [hx]))]

/-- Helper: unquote-plus inverts quote-plus (the URL value round-trip). -/
theorem unquotePlus_quotePlus (l : List Char) :
    unquotePlus (quotePlus l) = l := by
  unfold unquotePlus quotePlus
  rw [unquoteBytes_flatMap _ (utf8Bytes_lt l), utf8Decode_utf8Bytes]

/-- Helper: a string fixed by quote-plus is fixed by unquote-plus. -/
theorem unquotePlus_of_quotePlus_fix (l : List Char) (h : quotePlus l = l) :
    unquotePlus l = l := by
  conv_lhs => rw [← h]
  rw [unquotePlus_quotePlus]

/-- Helper: quote-plus output never contains the reserved characters with
codes 38 (ampersand), 61 (equals) or 63 (question mark). -/
theorem quotePlus_not_mem (l : List Char) (c : Char)
    (h38 : c.toNat = 38 ∨ c.toNat = 61 ∨ c.toNat = 63) : c ∉ quotePlus l := by
  intro hc
  obtain ⟨b, hb, hcb⟩ := List.mem_flatMap.mp hc
  have hb256 : b < 256 := utf8Bytes_lt l b hb
  unfold quotePlusByte at hcb
  by_cases hs : quoteSafeByte b
  · rw [if_pos hs] at hcb
    simp only [List.mem_singleton] at hcb
    have hprops : ((((((48 ≤ b ∧ b ≤ 57) ∨ (65 ≤ b ∧ b ≤ 90)) ∨
        (97 ≤ b ∧ b ≤ 122)) ∨ b = 45) ∨ b = 46) ∨ b = 95) ∨ b = 126 := by
      simpa [quoteSafeByte, Bool.or_eq_true, Bool.and_eq_true,
        decide_eq_true_eq] using hs
    have htoNat : (Char.ofNat b).toNat = b := char_toNat_ofNat b (by omega)
    have h2 : c.toNat = b := by rw [hcb, htoNat]
    omega
  · rw [if_neg hs] at hcb
    by_cases h32 : b = 32
    · rw [if_pos h32] at hcb
      simp only [List.mem_singleton] at hcb
      have h2 : c.toNat = 43 := by
        rw [hcb]
        rfl
      omega
    · rw [if_neg h32] at hcb
      simp only [List.mem_cons, List.not_mem_nil, or_false] at hcb
      rcases hcb with h | h | h
      · have h2 : c.toNat = 37 := by
          rw [h]
          rfl
        omega
      · have hm := hexDigit_toNat_mem (b / 16) (by omega)
        have h2 : c.toNat = (hexDigit (b / 16)).toNat := by rw [h]
        omega
      · have hm := hexDigit_toNat_mem (b % 16) (by omega)
        have h2 : c.toNat = (hexDigit (b % 16)).toNat := by rw [h]
        omega

/-- Helper: `afterFirstChar` skips a prefix free of the separator. -/
theorem afterFirstChar_append (c : Char) (pre l : List Char) (h : c ∉ pre) :
    afterFirstChar c (pre ++ l) = afterFirstChar c l := by
  induction pre with
  | nil => rfl
  | cons a t ih =>
    simp only [List.mem_cons, not_or] at h
    simp only [List.cons_append]
    rw [afterFirstChar, if_neg (fun he => h.1 he.symm), ih h.2]

/-- Helper: `afterFirstChar` at the separator itself returns the tail. -/
theorem afterFirstChar_cons_self (c : Char) (l : List Char) :
    afterFirstChar c (c :: l) = l := by
  rw [afterFirstChar, if_pos rfl]

/-- Helper: splitting at a separator that does not occur keeps the list
whole. -/
theorem splitChar_no_sep (c : Char) (l : List Char) (h : c ∉ l) :
    splitChar c l = [l] := by
  induction l with
  | nil => rfl
  | cons a t ih =>
    simp only [List.mem_cons, not_or] at h
    rw [splitChar, if_neg (fun he => h.1 he.symm), ih h.2]
    rfl

/-- Helper: splitting peels off a separator-free prefix at the first
separator. -/
theorem splitChar_break (c : Char) (pre l : List Char) (h : c ∉ pre) :
    splitChar c (pre ++ c :: l) = pre :: splitChar c l := by
  induction pre with
  | nil =>
    rw [List.nil_append, splitChar, if_pos rfl]
  | cons a t ih =>
    simp only [List.mem_cons, not_or] at h
    simp only [List.cons_append]
    rw [splitChar, if_neg (fun he => h.1 he.symm), ih h.2]
    rfl

/-- Helper: splitting at the first occurrence of the separator. -/
theorem splitFirstChar_break (c : Char) (pre l : List Char) (h : c ∉ pre) :
    splitFirstChar c (pre ++ c :: l) = (pre, l) := by
  induction pre with
  | nil =>
    rw [List.nil_append, splitFirstChar, if_pos rfl]
  | cons a t ih =>
    simp only [List.mem_cons, not_or] at h
    simp only [List.cons_append]
    rw [splitFirstChar, if_neg (fun he => h.1 he.symm), ih h.2]

/-- Helper: the sync builder URL parses into exactly the three parameters
`q`, `udm`, `hl` (the raw-interpolated language still passes the value
decoder). -/
theorem parseQueryParams_syncBuildUrl (q lang : List Char)
    (hamp : '&' ∉ lang) :
    parseQueryParams (syncBuildUrl q lang) =
      [("q".toList, q), ("udm".toList, "50".toList),
       ("hl".toList, unquotePlus lang)] := by
  have hurl : syncBuildUrl q lang = "https://www.google.com/search".toList ++
      '?' :: (('q' :: '=' :: quotePlus q) ++ '&' ::
        ("udm=50".toList ++ '&' :: ("hl=".toList ++ lang))) := by
    unfold syncBuildUrl
    rw [show "https://www.google.com/search?q=".toList =
        "https://www.google.com/search".toList ++ '?' :: 'q' :: '=' :: []
        from by decide,
      show "&udm=50&hl=".toList =
        '&' :: ("udm=50".toList ++ '&' :: "hl=".toList) from by decide]
    simp [List.append_assoc]
  have h1 : '&' ∉ 'q' :: '=' :: quotePlus q := by
    simp only [List.mem_cons, not_or]
    exact ⟨by decide, by decide, quotePlus_not_mem q '&' (Or.inl rfl)⟩
  have h3 : '&' ∉ "hl=".toList ++ lang := by
    simp only [List.mem_append, not_or]
    exact ⟨by decide, hamp⟩
  unfold parseQueryParams
  rw [hurl, afterFirstChar_append _ _ _ (by decide), afterFirstChar_cons_self,
    splitChar_break _ _ _ h1, splitChar_break _ _ _ (by decide),
    splitChar_no_sep _ _ h3]
  simp only [List.map_cons, List.map_nil]
  rw [show 'q' :: '=' :: quotePlus q = ['q'] ++ '=' :: quotePlus q from rfl,
    splitFirstChar_break _ _ _ (by decide),
    show "udm=50".toList = "udm".toList ++ '=' :: "50".toList from by decide,
    splitFirstChar_break _ _ _ (by decide),
    show "hl=".toList ++ lang = "hl".toList ++ '=' :: lang from by
      rw [show "hl=".toList = "hl".toList ++ ['='] from by decide]
      simp,
    splitFirstChar_break _ _ _ (by decide)]
  simp only [unquotePlus_quotePlus]
  rw [unquotePlus_of_quotePlus_fix "50".toList (by decide)]
  rfl

/-- Helper: `urlencode` on a three-pair list joins the quoted pairs with
ampersands. -/
theorem urlencode_three (k1 v1 k2 v2 k3 v3 : List Char) :
    urlencode [(k1, v1), (k2, v2), (k3, v3)] =
      (quotePlus k1 ++ '=' :: quotePlus v1) ++ '&' ::
        ((quotePlus k2 ++ '=' :: quotePlus v2) ++ '&' ::
          (quotePlus k3 ++ '=' :: quotePlus v3)) := by
  simp [urlencode, List.intercalate, List.intersperse, List.append_assoc]

/-- Helper: the async builder URL parses into exactly the three parameters
`q`, `udm`, `hl`. -/
theorem parseQueryParams_asyncBuildUrl (q lang : List Char) :
    parseQueryParams (asyncBuildUrl q lang) =
      [("q".toList, q), ("udm".toList, "50".toList), ("hl".toList, lang)] := by
  have hurl : asyncBuildUrl q lang = "https://www.google.com/search".toList ++
      '?' :: (("q".toList ++ '=' :: quotePlus q) ++ '&' ::
        (("udm".toList ++ '=' :: "50".toList) ++ '&' ::
          ("hl".toList ++ '=' :: quotePlus lang))) := by
    unfold asyncBuildUrl
    rw [urlencode_three,
      show quotePlus "q".toList = "q".toList from by decide,
      show quotePlus "udm".toList = "udm".toList from by decide,
      show quotePlus "50".toList = "50".toList from by decide,
      show quotePlus "hl".toList = "hl".toList from by decide,
      show "https://www.google.com/search?".toList =
        "https://www.google.com/search".toList ++ ['?'] from by decide]
    simp [List.append_assoc]
  have h1 : '&' ∉ "q".toList ++ '=' :: quotePlus q := by
    simp only [List.mem_append, List.mem_cons, not_or]
    exact ⟨by decide, by decide, quotePlus_not_mem q '&' (Or.inl rfl)⟩
  have h3 : '&' ∉ "hl".toList ++ '=' :: quotePlus lang := by
    simp only [List.mem_append, List.mem_cons, not_or]
    exact ⟨by decide, by decide, quotePlus_not_mem lang '&' (Or.inl rfl)⟩
  unfold parseQueryParams
  rw [hurl, afterFirstChar_append _ _ _ (by decide), afterFirstChar_cons_self,
    splitChar_break _ _ _ h1, splitChar_break _ _ _ (by decide),
    splitChar_no_sep _ _ h3]
  simp only [List.map_cons, List.map_nil]
  rw [splitFirstChar_break _ _ _ (by decide),
    splitFirstChar_break _ _ _ (by decide),
    splitFirstChar_break _ _ _ (by decide)]
  simp only [unquotePlus_quotePlus]
  rw [unquotePlus_of_quotePlus_fix "50".toList (by decide)]

/-- Helper: a parse result with the three standard keys determines the three
`getParam` lookups. -/
theorem getParam_of_parse (url v1 v2 v3 : List Char)
    (hp : parseQueryParams url =
      [("q".toList, v1), ("udm".toList, v2), ("hl".toList, v3)]) :
    getParam url "q".toList = some v1 ∧ getParam url "udm".toList = some v2 ∧
      getParam url "hl".toList = some v3 := by
  unfold getParam
  rw [hp]
  exact ⟨rfl, rfl, rfl⟩

/-- C9: URL round-trip.  For every non-empty query string and each of the
six language codes, both `_build_url` builders produce a URL whose parsed
query-string parameters return the original query exactly, and the URL
carries the AI-mode marker parameter `udm=50` and the `hl` parameter equal
to the requested language code. -/
theorem buildUrl_roundtrip (q lang : List Char) (_hq : q ≠ [])
    (hlang : lang ∈ languageCodes) :
    (getParam (syncBuildUrl q lang) "q".toList = some q ∧
     getParam (syncBuildUrl q lang) "udm".toList = some "50".toList ∧
     getParam (syncBuildUrl q lang) "hl".toList = some lang) ∧
    (getParam (asyncBuildUrl q lang) "q".toList = some q ∧
     getParam (asyncBuildUrl q lang) "udm".toList = some "50".toList ∧
     getParam (asyncBuildUrl q lang) "hl".toList = some lang) := by
  have hamp : '&' ∉ lang := by
    fin_cases hlang <;> decide
  have hun : unquotePlus lang = lang := by
    fin_cases hlang <;>
      exact unquotePlus_of_quotePlus_fix _ (by decide)
  have hsync := parseQueryParams_syncBuildUrl q lang hamp
  rw [hun] at hsync
  exact ⟨getParam_of_parse _ _ _ _ hsync,
    getParam_of_parse _ _ _ _ (parseQueryParams_asyncBuildUrl q lang)⟩

/-- Witness for C9 at the concrete query `ab` and language `zh-CN`. -/
theorem buildUrl_roundtrip_witness :
    ("ab".toList ≠ [] ∧ "zh-CN".toList ∈ languageCodes) ∧
    ((getParam (syncBuildUrl "ab".toList "zh-CN".toList) "q".toList =
        some "ab".toList ∧
      getParam (syncBuildUrl "ab".toList "zh-CN".toList) "udm".toList =
        some "50".toList ∧
      getParam (syncBuildUrl "ab".toList "zh-CN".toList) "hl".toList =
        some "zh-CN".toList) ∧
     (getParam (asyncBuildUrl "ab".toList "zh-CN".toList) "q".toList =
        some "ab".toList ∧
      getParam (asyncBuildUrl "ab".toList "zh-CN".toList) "udm".toList =
        some "50".toList ∧
      getParam (asyncBuildUrl "ab".toList "zh-CN".toList) "hl".toList =
        some "zh-CN".toList)) :=
  ⟨⟨by decide, by decide⟩,
    buildUrl_roundtrip "ab".toList "zh-CN".toList (by decide) (by decide)⟩

/-- Helper: the no-two-runs predicate passes to the tail. -/
theorem noTwoB_tail (c a : Char) (l : List Char)
    (h : noTwoB c (a :: l) = true) : noTwoB c l = true := by
  cases l with
  | nil => rfl
  | cons b t =>
    rw [noTwoB] at h
    split at h
    · exact absurd h (by simp)
    · exact h

/-- Helper: the no-two-runs predicate restricts to a left factor. -/
theorem noTwoB_append_left (c : Char) (x y : List Char)
    (h : noTwoB c (x ++ y) = true) : noTwoB c x = true := by
  induction x with
  | nil => rfl
  | cons a x2 ih =>
    cases x2 with
    | nil => rfl
    | cons b x3 =>
      simp only [List.cons_append] at h
      rw [noTwoB] at h
      split at h
      · exact absurd h (by simp)
      · rename_i hcond
        rw [noTwoB, if_neg hcond]
        exact ih h

/-- Helper: the no-two-runs predicate restricts to a right factor. -/
theorem noTwoB_append_right (c : Char) (x y : List Char)
    (h : noTwoB c (x ++ y) = true) : noTwoB c y = true := by
  induction x with
  | nil => exact h
  | cons a x2 ih =>
    exact ih (noTwoB_tail c a _ h)

/-- Helper: consing keeps the predicate when the head pair cannot both be
the collapsed character. -/
theorem noTwoB_cons_of (c a : Char) (X : List Char)
    (h1 : a ≠ c ∨ X.head? ≠ some c) (h2 : noTwoB c X = true) :
    noTwoB c (a :: X) = true := by
  cases X with
  | nil => rfl
  | cons x xs =>
    have hcond : ¬(a = c ∧ x = c) := by
      rcases h1 with h1 | h1
      · exact fun hc => h1 hc.1
      · exact fun hc => h1 (by rw [List.head?_cons]; exact congrArg some hc.2)
    rw [noTwoB, if_neg hcond]
    exact h2

/-- Helper: the head survivor of a collapse. -/
theorem collapseRuns_head (d b : Char) (t : List Char) :
    (collapseRuns d (b :: t)).head? = some (if b = d then d else b) := by
  induction t generalizing b with
  | nil =>
    rw [collapseRuns]
    simp only [List.head?_cons]
    by_cases hbd : b = d
    · rw [if_pos hbd, hbd]
    · rw [if_neg hbd]
  | cons e t2 ih =>
    rw [collapseRuns]
    by_cases hbe : b = d ∧ e = d
    · rw [if_pos hbe, ih e, if_pos hbe.2, if_pos hbe.1]
    · rw [if_neg hbe]
      simp only [List.head?_cons]
      by_cases hbd : b = d
      · rw [if_pos hbd, hbd]
      · rw [if_neg hbd]

/-- Helper: collapsing leaves no two consecutive collapsed characters. -/
theorem noTwoB_collapseRuns (c : Char) (l : List Char) :
    noTwoB c (collapseRuns c l) = true := by
  induction l with
  | nil => rfl
  | cons a t ih =>
    cases t with
    | nil => rfl
    | cons b t2 =>
      rw [collapseRuns]
      by_cases hab : a = c ∧ b = c
      · rw [if_pos hab]
        exact ih
      · rw [if_neg hab]
        apply noTwoB_cons_of
        · by_cases hac : a = c
          · right
            rw [collapseRuns_head]
            intro heq
            have hcc := Option.some.inj heq
            by_cases hbc : b = c
            · exact hab ⟨hac, hbc⟩
            · rw [if_neg hbc] at hcc
              exact hbc hcc
          · left
            exact hac
        · exact ih

/-- Helper: a list already free of runs is fixed by the collapse. -/
theorem collapseRuns_of_noTwoB (c : Char) (l : List Char)
    (h : noTwoB c l = true) : collapseRuns c l = l := by
  induction l with
  | nil => rfl
  | cons a t ih =>
    cases t with
    | nil => rfl
    | cons b t2 =>
      rw [noTwoB] at h
      split at h
      · exact absurd h (by simp)
      · rename_i hcond
        rw [collapseRuns, if_neg hcond, ih h]

/-- Helper: collapsing runs of a different character preserves the
predicate. -/
theorem noTwoB_collapseRuns_other (c d : Char) (l : List Char) (hdc : d ≠ c)
    (h : noTwoB c l = true) : noTwoB c (collapseRuns d l) = true := by
  induction l with
  | nil => rfl
  | cons a t ih =>
    cases t with
    | nil => rfl
    | cons b t2 =>
      have htail : noTwoB c (b :: t2) = true := noTwoB_tail c a _ h
      rw [collapseRuns]
      by_cases hab : a = d ∧ b = d
      · rw [if_pos hab]
        exact ih htail
      · rw [if_neg hab]
        apply noTwoB_cons_of
        · by_cases hac : a = c
          · right
            rw [collapseRuns_head]
            intro heq
            have hcc := Option.some.inj heq
            by_cases hbd : b = d
            · rw [if_pos hbd] at hcc
              exact hdc hcc
            · rw [if_neg hbd] at hcc
              rw [noTwoB, if_pos ⟨hac, hcc⟩] at h
              exact absurd h (by simp)
          · left
            exact hac
        · exact ih htail

/-- Helper: the predicate restricts to any contiguous substring. -/
theorem noTwoB_contig (c : Char) (l₁ l₂ : List Char) (h : l₁ <:+: l₂)
    (h2 : noTwoB c l₂ = true) : noTwoB c l₁ = true := by
  obtain ⟨x, y, hxy⟩ := h
  rw [← hxy, List.append_assoc] at h2
  exact noTwoB_append_left c l₁ y (noTwoB_append_right c x (l₁ ++ y) h2)

/-- Helper: a fold of substitutions that each fix the state is the
identity. -/
theorem applyPatterns_fix (ps : List RePattern) (s : List Char)
    (h : ∀ p ∈ ps, subPattern p s = s) : applyPatterns ps s = s := by
  induction ps with
  | nil => rfl
  | cons p ps2 ih =>
    show applyPatterns ps2 (subPattern p s) = s
    rw [h p (by simp)]
    exact ih (fun p2 hp2 => h p2 (by simp [hp2]))

set_option maxRecDepth 10000 in
/-- C3 counterexample: cleaning is not idempotent — on a text carrying a
leading space before the AI-mode label, the first pass only strips the
space, which uncovers an anchored label match for the second pass. -/
theorem cleanAiAnswer_not_idempotent :
    cleanAiAnswer (cleanAiAnswer " AI 模式 x".toList) ≠
      cleanAiAnswer " AI 模式 x".toList := by
  decide

/-- C3 (amended): cleaning is idempotent on every input whose cleaned text
is fixed by each removal pattern: the run-collapse and strip phases are
idempotent unconditionally, so a second `clean_ai_answer` pass changes
nothing unless some removal pattern matches again inside the once-cleaned
text (as in the counterexample, where the first pass uncovers a fresh
anchored label match). -/
theorem cleanAiAnswer_idempotent (t : List Char)
    (H : ∀ p ∈ cleanPatterns,
      subPattern p (cleanAiAnswer t) = cleanAiAnswer t) :
    cleanAiAnswer (cleanAiAnswer t) = cleanAiAnswer t := by
  have hwsnl : ('\n' : Char) ≠ ' ' := by decide
  have h1 : noTwoB ' ' (cleanAiAnswer t) = true := by
    unfold cleanAiAnswer
    exact noTwoB_contig _ _ _ (pyStrip_contig _)
      (noTwoB_collapseRuns_other _ _ _ hwsnl (noTwoB_collapseRuns _ _))
  have h2 : noTwoB '\n' (cleanAiAnswer t) = true := by
    unfold cleanAiAnswer
    exact noTwoB_contig _ _ _ (pyStrip_contig _) (noTwoB_collapseRuns _ _)
  show pyStrip (collapseRuns '\n' (collapseRuns ' '
      (applyPatterns cleanPatterns (cleanAiAnswer t)))) = cleanAiAnswer t
  rw [applyPatterns_fix _ _ H, collapseRuns_of_noTwoB _ _ h1,
    collapseRuns_of_noTwoB _ _ h2]
  show pyStrip (pyStrip (collapseRuns '\n' (collapseRuns ' '
      (applyPatterns cleanPatterns t)))) =
    pyStrip (collapseRuns '\n' (collapseRuns ' '
      (applyPatterns cleanPatterns t)))
  exact pyStrip_idem _

set_option maxRecDepth 10000 in
/-- C3 witness: the amended idempotence at the concrete input `hello`,
whose cleaned text is fixed by every removal pattern. -/
theorem cleanAiAnswer_idempotent_witness :
    (∀ p ∈ cleanPatterns,
      subPattern p (cleanAiAnswer "hello".toList) =
        cleanAiAnswer "hello".toList) ∧
    cleanAiAnswer (cleanAiAnswer "hello".toList) =
      cleanAiAnswer "hello".toList :=
  ⟨by decide, cleanAiAnswer_idempotent "hello".toList (by decide)⟩

/-- Helper: an anchored label pattern consumes exactly the label and the
following whitespace. -/
theorem matchItems_label (L t : List Char) :
    matchItems (L.map RItem.lit ++ [RItem.wsStar]) (L ++ t) =
      some (t.dropWhile pyWs) := by
  induction L with
  | nil => rfl
  | cons a L2 ih =>
    have hstep : matchItems
        (RItem.lit a :: (L2.map RItem.lit ++ [RItem.wsStar]))
        (a :: (L2 ++ t)) =
        if foldChar a = foldChar a then
          matchItems (L2.map RItem.lit ++ [RItem.wsStar]) (L2 ++ t)
        else none := rfl
    show matchItems (RItem.lit a :: (L2.map RItem.lit ++ [RItem.wsStar]))
      (a :: (L2 ++ t)) = some (t.dropWhile pyWs)
    rw [hstep, if_pos rfl]
    exact ih

/-- Helper: the anchored label pattern rewrites a label-prefixed text to
the remainder without its leading whitespace. -/
theorem subPattern_label (L t : List Char) :
    subPattern ⟨true, L.map RItem.lit ++ [RItem.wsStar]⟩ (L ++ t) =
      t.dropWhile pyWs := by
  show (match matchItems (L.map RItem.lit ++ [RItem.wsStar]) (L ++ t) with
    | some leftover => leftover
    | none => L ++ t) = t.dropWhile pyWs
  rw [matchItems_label]

/-- Helper: folding the table over a label-prefixed text: patterns other
than the anchored label pattern fix the text, the label pattern strips the
label and its trailing whitespace, and every pattern fixes the remainder. -/
theorem applyPatterns_label (L t : List Char) (ps : List RePattern)
    (hmem : (⟨true, L.map RItem.lit ++ [RItem.wsStar]⟩ : RePattern) ∈ ps)
    (H1 : ∀ p ∈ ps,
      p ≠ ⟨true, L.map RItem.lit ++ [RItem.wsStar]⟩ →
      subPattern p (L ++ t) = L ++ t)
    (H2 : ∀ p ∈ ps,
      subPattern p (t.dropWhile pyWs) = t.dropWhile pyWs) :
    applyPatterns ps (L ++ t) = t.dropWhile pyWs := by
  induction ps with
  | nil => exact absurd hmem (List.not_mem_nil _)
  | cons p ps2 ih =>
    show applyPatterns ps2 (subPattern p (L ++ t)) = t.dropWhile pyWs
    by_cases hp : p = ⟨true, L.map RItem.lit ++ [RItem.wsStar]⟩
    · subst hp
      rw [subPattern_label]
      exact applyPatterns_fix _ _ (fun p2 hp2 => H2 p2 (by simp [hp2]))
    · rw [H1 p (by simp) hp]
      rcases List.mem_cons.mp hmem with heq | hmem2
      · exact absurd heq.symm hp
      · exact ih hmem2 (fun p2 hp2 hne => H1 p2 (by simp [hp2]) hne)
          (fun p2 hp2 => H2 p2 (by simp [hp2]))

set_option maxRecDepth 10000 in
/-- C7 counterexample: on a doubled label the anchored pattern fires only
once, so the cleaned text still starts with the label it was supposed to
remove. -/
theorem cleanAiAnswer_label_counterexample :
    "AI 模式".toList <+: "AI 模式AI 模式hello".toList ∧
    "AI 模式".toList <+: cleanAiAnswer "AI 模式AI 模式hello".toList := by
  decide

/-- C7 (amended): AI-mode label removal holds whenever the removal is
unambiguous: for a text that is one of the six labels `L` followed by `t`,
if every pattern other than the anchored label pattern fixes the text,
every pattern fixes the de-indented remainder, and the cleaned remainder
does not itself start with `L`, then the cleaned text does not start with
`L` (without these conditions a further label occurrence survives, as the
counterexample shows). -/
theorem cleanAiAnswer_label_removal (L t : List Char)
    (hL : L ∈ aiModeLabels)
    (H1 : ∀ p ∈ cleanPatterns,
      p ≠ ⟨true, L.map RItem.lit ++ [RItem.wsStar]⟩ →
      subPattern p (L ++ t) = L ++ t)
    (H2 : ∀ p ∈ cleanPatterns,
      subPattern p (t.dropWhile pyWs) = t.dropWhile pyWs)
    (hres : ¬L <+: pyStrip (collapseRuns '\n' (collapseRuns ' '
      (t.dropWhile pyWs)))) :
    ¬L <+: cleanAiAnswer (L ++ t) := by
  have hmem : (⟨true, L.map RItem.lit ++ [RItem.wsStar]⟩ : RePattern) ∈
      cleanPatterns := by
    fin_cases hL <;> decide
  show ¬L <+: pyStrip (collapseRuns '\n' (collapseRuns ' '
    (applyPatterns cleanPatterns (L ++ t))))
  rw [applyPatterns_label L t _ hmem H1 H2]
  exact hres

set_option maxRecDepth 10000 in
/-- C7 witness: the amended label removal at the concrete label `AI 模式`
with an empty remainder. -/
theorem cleanAiAnswer_label_removal_witness :
    ("AI 模式".toList ∈ aiModeLabels ∧
     (∀ p ∈ cleanPatterns,
        p ≠ ⟨true, "AI 模式".toList.map RItem.lit ++ [RItem.wsStar]⟩ →
        subPattern p ("AI 模式".toList ++ ([] : List Char)) =
          "AI 模式".toList ++ ([] : List Char)) ∧
     (∀ p ∈ cleanPatterns,
        subPattern p (([] : List Char).dropWhile pyWs) =
          ([] : List Char).dropWhile pyWs) ∧
     ¬"AI 模式".toList <+: pyStrip (collapseRuns '\n' (collapseRuns ' '
        (([] : List Char).dropWhile pyWs)))) ∧
    ¬"AI 模式".toList <+: cleanAiAnswer ("AI 模式".toList ++ []) :=
  ⟨⟨by decide, by decide, by decide, by decide⟩,
   cleanAiAnswer_label_removal "AI 模式".toList [] (by decide) (by decide)
     (by decide) (by decide)⟩

end GoogleAISearch
